import Mathlib

/-!
Rtc: BCD codec, calendar value type and the two chip register protocols.

A shallow embedding of `RtcUtility.cpp`, `RtcDateTime.cpp`, `RtcDS1302.h` and
`RtcDS1307.h`.

Conventions of the embedding.
* A `uint8_t`, `uint16_t`, `uint32_t` or `uint64_t` value is a `Nat`; every
  place where the C code narrows a result to `w` bits carries an explicit
  `% 2 ^ w`.
* Arithmetic on `uint8_t` operands is carried out in `int` (integer promotion)
  and only narrowed on return or assignment, exactly as in C.
* A bus transport is a value holding the log of the calls made on it and the
  answers it will give; a driver method takes the bus (chip B: the driver
  object with its `_lastError`) and returns its result with the bus after it.
-/

namespace Rtc

/-! ## RtcUtility.cpp -/

/-- `uint8_t BcdToUint8(uint8_t val) { return val - 6 * (val >> 4); }`.
The difference is formed in `int`; since `16 * (val >> 4) ≤ val` it is never
negative, so truncated subtraction on `Nat` is exact. -/
def BcdToUint8 (val : Nat) : Nat :=
  (val - 6 * (val >>> 4)) % 256

/-- `uint8_t Uint8ToBcd(uint8_t val) { return val + 6 * (val / 10); }`. -/
def Uint8ToBcd (val : Nat) : Nat :=
  (val + 6 * (val / 10)) % 256

/-- `uint8_t BcdToBin24Hour(uint8_t bcdHour)`: bit `0x40` selects the 12-hour
branch, which adds `((bcdHour & 0x20) >> 3) * 3` to the decoded low five bits. -/
def BcdToBin24Hour (bcdHour : Nat) : Nat :=
  if bcdHour &&& 0x40 ≠ 0 then
    (BcdToUint8 (bcdHour &&& 0x1f) + ((bcdHour &&& 0x20) >>> 3) * 3) % 256
  else
    BcdToUint8 bcdHour

/-- Standard 12-hour to 24-hour conversion, as the specification words it:
twelve o'clock is hour zero of its half day, and PM adds twelve. -/
def hour12To24 (h12 : Nat) (pm : Bool) : Nat :=
  h12 % 12 + (if pm then 12 else 0)

/-- The hour register byte of a chip in 12-hour mode: mode bit `0x40`, PM flag
`0x20`, and the BCD of the 12-hour value in the low five bits. -/
def hourRegister12 (h12 : Nat) (pm : Bool) : Nat :=
  0x40 ||| (if pm then 0x20 else 0) ||| Uint8ToBcd h12

/-! ## RtcDateTime.cpp -/

/-- The calendar value. The class declaration lives in `RtcDateTime.h`; the
fields are the members the functions of `RtcDateTime.cpp` read and write
(`_yearFrom2000`, `_month`, `_dayOfMonth`, `_hour`, `_minute`, `_second`),
each a `uint8_t`. -/
structure RtcDateTime where
  yearFrom2000 : Nat
  month : Nat
  dayOfMonth : Nat
  hour : Nat
  minute : Nat
  second : Nat
deriving DecidableEq, Repr

/-- Every field fits its `uint8_t` member. -/
def RtcDateTime.InRange (dt : RtcDateTime) : Prop :=
  dt.yearFrom2000 < 256 ∧ dt.month < 256 ∧ dt.dayOfMonth < 256 ∧
  dt.hour < 256 ∧ dt.minute < 256 ∧ dt.second < 256

instance (dt : RtcDateTime) : Decidable dt.InRange :=
  inferInstanceAs (Decidable (_ ∧ _))

/-- Modelled from the spec: the accessor `Year()` and the name `_year` used by
`IsValid` and `_IsValidLeapSecond` are declared in `RtcDateTime.h`, which is
not part of the sources; the specification describes the year as absolute and
stored as an offset from 2000 (and the chip drivers write `dt.Year() - 2000`). -/
def RtcDateTime.Year (dt : RtcDateTime) : Nat :=
  2000 + dt.yearFrom2000

/-- `static const uint8_t c_daysInMonth[]`. -/
def c_daysInMonth : List Nat := [31, 28, 31, 30, 31, 30, 31, 31, 30, 31, 30, 31]

/-- `#define BETWEEN_INCL(x, a, b) ((x) >= (a) && (x) <= (b))`. -/
def BETWEEN_INCL (x a b : Nat) : Bool :=
  decide (x ≥ a) && decide (x ≤ b)

/-- `#define IS_LEAP_YEAR(y) ((!((y) % 4) && ((y) % 100)) || !((y) % 400))`. -/
def IS_LEAP_YEAR (y : Nat) : Bool :=
  (y % 4 == 0 && y % 100 != 0) || y % 400 == 0

/-- `#define IS_30_DAY_MONTH(m) ((((m) - 1) % 7) % 2)`: the month is promoted
to `int`, `%` truncates towards zero, and the result is used as a truth
value. -/
def IS_30_DAY_MONTH (m : Nat) : Bool :=
  ((((m : Int) - 1).tmod 7).tmod 2) != 0

/-- `_summerLeapSecondTable`: years with a leap second at yyyy-06-30 23:59:60. -/
def summerLeapSecondTable : List Nat :=
  [1972, 1981, 1982, 1983, 1985, 1992, 1993, 1994, 1997, 2012, 2015]

/-- `_winterLeapSecondTable`: years with a leap second at yyyy-12-31 23:59:60. -/
def winterLeapSecondTable : List Nat :=
  [1972, 1973, 1974, 1975, 1976, 1977, 1978, 1979, 1987, 1989,
   1990, 1995, 1998, 2005, 2008, 2016]

/-- `bool RtcDateTime::_IsValidLeapSecond() const`. The source text reads
`_summerSecondTable`, `ARRAY_SIZEl`, `size_t = 0`, `_day` and `_year`; they are
taken as the summer table, `ARRAY_SIZE`, the loop variable `i`, the
day-of-month and the absolute year. The `else if (_month == 12 && _day == 31)`
has no braces around it, so C attaches it to the nearest `if`, the table
comparison inside the first `for` loop: the year-end loop only runs inside the
mid-year loop, under `_month == 6 && _day == 30`. Each loop returns `true` at
the first match, which is `List.any`. -/
def IsValidLeapSecond (dt : RtcDateTime) : Bool :=
  if dt.hour == 23 && dt.minute == 59 then
    if dt.month == 6 && dt.dayOfMonth == 30 then
      summerLeapSecondTable.any fun entry =>
        if entry == dt.Year then true
        else if dt.month == 12 && dt.dayOfMonth == 31 then
          winterLeapSecondTable.any fun entry2 => entry2 == dt.Year
        else false
    else false
  else false

/-- `bool RtcDateTime::IsValid() const`, statement by statement. -/
def IsValid (dt : RtcDateTime) : Bool :=
  if !BETWEEN_INCL dt.month 1 12 then false
  else if !BETWEEN_INCL dt.dayOfMonth 1 31 then false
  else if dt.hour > 23 then false
  else if dt.minute > 59 then false
  else if
    (if dt.month == 2 then
      decide (dt.dayOfMonth > 29) ||
        (dt.dayOfMonth == 29 && !IS_LEAP_YEAR dt.Year)
    else dt.dayOfMonth == 31 && IS_30_DAY_MONTH dt.month) then false
  else if decide (dt.second > 59) ||
      (dt.second == 60 && !IsValidLeapSecond dt) then false
  else true

/-- `template<typename T> T DaysSinceFirstOfYear2000(uint16_t year, uint8_t
month, uint8_t dayOfMonth)` for `T` an unsigned type of `w` bits. `days` is a
`T`, so each `+=` and the `++` wrap at `2 ^ w`; the returned sum is formed in
`int` (taken to be at least 32 bits wide) and narrowed to `T`, the final `- 1`
being a subtraction modulo `2 ^ w`. `pgm_read_byte` past the end of the table
(only possible for `month > 13`) reads as 0 here. -/
def DaysSinceFirstOfYear2000 (w : Nat) (year month dayOfMonth : Nat) : Nat :=
  let days := (List.range' 1 (month - 1)).foldl
    (fun days indexMonth => (days + c_daysInMonth.getD (indexMonth - 1) 0) % 2 ^ w)
    (dayOfMonth % 2 ^ w)
  let days := if month > 2 ∧ year % 4 = 0 then (days + 1) % 2 ^ w else days
  (days + 365 * year + (year + 3) / 4 + 2 ^ w - 1) % 2 ^ w

/-- `template<typename T> T SecondsIn(T days, uint8_t hours, uint8_t minutes,
uint8_t seconds)` for `T` an unsigned type of `w` bits. -/
def SecondsIn (w : Nat) (days hours minutes seconds : Nat) : Nat :=
  (((days % 2 ^ w * 24 + hours) * 60 + minutes) * 60 + seconds) % 2 ^ w

/-- `uint8_t RtcDateTime::DayOfWeek() const`. -/
def DayOfWeek (dt : RtcDateTime) : Nat :=
  let days := DaysSinceFirstOfYear2000 16 dt.yearFrom2000 dt.month dt.dayOfMonth
  (days + 6) % 7 % 256

/-- `uint32_t RtcDateTime::TotalSeconds() const`. -/
def TotalSeconds (dt : RtcDateTime) : Nat :=
  let days := DaysSinceFirstOfYear2000 16 dt.yearFrom2000 dt.month dt.dayOfMonth
  SecondsIn 32 days dt.hour dt.minute dt.second

/-- `uint64_t RtcDateTime::TotalSeconds64() const`. -/
def TotalSeconds64 (dt : RtcDateTime) : Nat :=
  let days := DaysSinceFirstOfYear2000 32 dt.yearFrom2000 dt.month dt.dayOfMonth
  SecondsIn 64 days dt.hour dt.minute dt.second

/-- Modelled from the spec: the year loop of `_initWithSecondsFrom2000`, which
is defined in `RtcDateTime.h`, a file that is not part of the sources. Whole
years are taken off a day count from `year` on, 365 days each plus the leap
day that `DaysSinceFirstOfYear2000` adds for every fourth year; the result is
the year reached and the days left in it. `fuel` bounds the iterations. -/
def peelYears : Nat → Nat → Nat → Nat × Nat
  | 0, year, days => (year, days)
  | fuel + 1, year, days =>
    let leapDays := if year % 4 = 0 then 1 else 0
    if days < 365 + leapDays then (year, days)
    else peelYears fuel (year + 1) (days - (365 + leapDays))

/-- Modelled from the spec: the month loop of `_initWithSecondsFrom2000`
(`RtcDateTime.h`, not part of the sources). Whole months are taken off the days
left in the year, with the lengths of `c_daysInMonth` and one more day for
February when `leapDays` is non-zero. -/
def peelMonths (leapDays : Nat) : Nat → Nat → Nat → Nat × Nat
  | 0, month, days => (month, days)
  | fuel + 1, month, days =>
    let daysPerMonth :=
      c_daysInMonth.getD (month - 1) 0 + (if leapDays ≠ 0 ∧ month = 2 then 1 else 0)
    if days < daysPerMonth then (month, days)
    else peelMonths leapDays fuel (month + 1) (days - daysPerMonth)

/-- Modelled from the spec: `_initWithSecondsFrom2000<uint32_t>`, defined in
`RtcDateTime.h`, which is not part of the sources. The specification describes
it only as the construction from linear seconds that inverts `TotalSeconds`,
whose value is ((days×24 + hour)×60 + minute)×60 + second with days accumulated
per whole year, whole month and leap day. The model undoes that accumulation in
order: second, minute and hour by division with remainder, then whole years,
then whole months, and the remaining days plus one as day-of-month. -/
def initWithSecondsFrom2000 (secondsFrom2000 : Nat) : RtcDateTime :=
  let second := secondsFrom2000 % 60
  let timeFrom2000 := secondsFrom2000 / 60
  let minute := timeFrom2000 % 60
  let timeFrom2000 := timeFrom2000 / 60
  let hour := timeFrom2000 % 24
  let days := timeFrom2000 / 24
  let years := peelYears 256 0 days
  let leapDays := if years.1 % 4 = 0 then 1 else 0
  let months := peelMonths leapDays 12 1 years.2
  { yearFrom2000 := years.1, month := months.1, dayOfMonth := months.2 + 1,
    hour := hour, minute := minute, second := second }

/-- `RtcDateTime::RtcDateTime(uint32_t secondsFrom2000)`: the argument is
narrowed to 32 bits and handed to `_initWithSecondsFrom2000<uint32_t>`. -/
def RtcDateTime.fromSeconds (secondsFrom2000 : Nat) : RtcDateTime :=
  initWithSecondsFrom2000 (secondsFrom2000 % 2 ^ 32)

/-! ## Reference notions of the specification -/

/-- Gregorian leap year: divisible by 4 and not by 100, or divisible by 400. -/
def isGregorianLeapYear (y : Nat) : Prop :=
  (y % 4 = 0 ∧ y % 100 ≠ 0) ∨ y % 400 = 0

instance (y : Nat) : Decidable (isGregorianLeapYear y) :=
  inferInstanceAs (Decidable (_ ∨ _))

/-- Length of a month of the Gregorian calendar (0 for a month outside 1..12). -/
def monthLength (year month : Nat) : Nat :=
  if month ∈ [1, 3, 5, 7, 8, 10, 12] then 31
  else if month ∈ [4, 6, 9, 11] then 30
  else if month = 2 then (if isGregorianLeapYear year then 29 else 28)
  else 0

/-- The calendar part of the validity invariant, in the specification's words. -/
def validCalendar (dt : RtcDateTime) : Prop :=
  1 ≤ dt.month ∧ dt.month ≤ 12 ∧ dt.hour ≤ 23 ∧ dt.minute ≤ 59 ∧
  1 ≤ dt.dayOfMonth ∧ dt.dayOfMonth ≤ monthLength dt.Year dt.month

instance (dt : RtcDateTime) : Decidable (validCalendar dt) :=
  inferInstanceAs (Decidable (_ ∧ _))

/-- A legal leap second in the specification's words: second 60 at 23:59 on
June 30 of a year of the mid-year table or on December 31 of a year of the
year-end table. -/
def legalLeapSecond (dt : RtcDateTime) : Prop :=
  dt.second = 60 ∧ dt.hour = 23 ∧ dt.minute = 59 ∧
  ((dt.month = 6 ∧ dt.dayOfMonth = 30 ∧ dt.Year ∈ summerLeapSecondTable) ∨
   (dt.month = 12 ∧ dt.dayOfMonth = 31 ∧ dt.Year ∈ winterLeapSecondTable))

instance (dt : RtcDateTime) : Decidable (legalLeapSecond dt) :=
  inferInstanceAs (Decidable (_ ∧ _))

/-- Weekday by Zeller's congruence for the Gregorian calendar, renumbered from
Zeller's 0 = Saturday to 0 = Sunday ... 6 = Saturday. January and February
count as months 13 and 14 of the preceding year. -/
def zellerWeekday (year month day : Nat) : Nat :=
  let m := if month < 3 then month + 12 else month
  let y := if month < 3 then year - 1 else year
  let K := y % 100
  let J := y / 100
  let h := (day + 13 * (m + 1) / 5 + K + K / 4 + J / 4 + 5 * J) % 7
  (h + 6) % 7

/-- Days of a common year that precede the first of `month`. -/
def daysBeforeMonth (month : Nat) : Nat :=
  [0, 31, 59, 90, 120, 151, 181, 212, 243, 273, 304, 334].getD (month - 1) 0

/-- The value `DaysSinceFirstOfYear2000` computes when nothing wraps. -/
def daysExact (year month dayOfMonth : Nat) : Nat :=
  dayOfMonth + daysBeforeMonth month + (if month > 2 ∧ year % 4 = 0 then 1 else 0)
    + 365 * year + (year + 3) / 4 - 1

/-! ## Bus transport -/

/-- One call on a bus transport object, as it appears on the wire. -/
inductive WireEvent where
  | beginTransmission (address : Nat)
  | write (value : Nat)
  | read (value : Nat)
  | endTransmission
  | requestFrom (address count : Nat)
deriving DecidableEq, Repr

/-- Modelled from the spec: the three-wire transport of chip A (`ThreeWire.h`
is not part of the sources), the transport collaborator of the specification:
begin-transmission-to-address, write-byte, read-byte, end-transmission, with no
status at all. `log` records the calls made, `incoming` holds the bytes the chip
will answer to `read()` (0 once exhausted). -/
structure ThreeWire where
  log : List WireEvent
  incoming : List Nat
deriving DecidableEq, Repr

/-- Modelled from the spec: `THREEWIRE_READFLAG` of `ThreeWire.h` (not part of
the sources); the read and write variants of a chip A register address differ
by this flag bit, bit 0 of the command byte. -/
def THREEWIRE_READFLAG : Nat := 0x01

def ThreeWire.beginTransmission (w : ThreeWire) (address : Nat) : ThreeWire :=
  { w with log := w.log ++ [WireEvent.beginTransmission address] }

def ThreeWire.write (w : ThreeWire) (value : Nat) : ThreeWire :=
  { w with log := w.log ++ [WireEvent.write value] }

def ThreeWire.read (w : ThreeWire) : Nat × ThreeWire :=
  (w.incoming.headD 0 % 256,
   { log := w.log ++ [WireEvent.read (w.incoming.headD 0 % 256)],
     incoming := w.incoming.tail })

def ThreeWire.endTransmission (w : ThreeWire) : ThreeWire :=
  { w with log := w.log ++ [WireEvent.endTransmission] }

/-- Modelled from the spec: the addressed two-wire transport of chip B, the
transport collaborator of the specification with an end-transmission status
code and a request-N-bytes primitive returning the bytes available. The three
lists are what the bus will answer, in order: the status of each
`endTransmission()` (0 once exhausted), the count returned by each
`requestFrom()` and the bytes returned by `read()`. -/
structure TwoWire where
  log : List WireEvent
  endStatus : List Nat
  received : List Nat
  incoming : List Nat
deriving DecidableEq, Repr

def TwoWire.beginTransmission (w : TwoWire) (address : Nat) : TwoWire :=
  { w with log := w.log ++ [WireEvent.beginTransmission address] }

def TwoWire.write (w : TwoWire) (value : Nat) : TwoWire :=
  { w with log := w.log ++ [WireEvent.write value] }

def TwoWire.endTransmission (w : TwoWire) : Nat × TwoWire :=
  (w.endStatus.headD 0 % 256,
   { w with log := w.log ++ [WireEvent.endTransmission], endStatus := w.endStatus.tail })

def TwoWire.requestFrom (w : TwoWire) (address count : Nat) : Nat × TwoWire :=
  (w.received.headD 0 % 256,
   { w with log := w.log ++ [WireEvent.requestFrom address count],
            received := w.received.tail })

def TwoWire.read (w : TwoWire) : Nat × TwoWire :=
  (w.incoming.headD 0 % 256,
   { w with log := w.log ++ [WireEvent.read (w.incoming.headD 0 % 256)],
            incoming := w.incoming.tail })

/-- `_BV(bit)`, the bit-value macro of the Arduino core: `1 << bit`. -/
def _BV (bit : Nat) : Nat := 1 <<< bit

/-- Modelled from the spec: the constructor `RtcDateTime(year, month,
dayOfMonth, hour, minute, second)` is declared in `RtcDateTime.h`, which is not
part of the sources; the calendar value is built from explicit field values,
the absolute year being stored as an 8-bit offset from 2000. -/
def RtcDateTime.ofFields (year month dayOfMonth hour minute second : Nat) : RtcDateTime :=
  { yearFrom2000 := (year - 2000) % 256, month := month, dayOfMonth := dayOfMonth,
    hour := hour, minute := minute, second := second }

/-- Modelled from the spec: `RtcDateTime::ConvertDowToRtc` is declared in
`RtcDateTime.h`, which is not part of the sources; it maps this system's 0..6
day-of-week (0 = Sunday) to the chips' 1..7 numbering (1 = Monday), so Sunday
becomes 7 and the other days keep their number. -/
def ConvertDowToRtc (dow : Nat) : Nat :=
  if dow = 0 then 7 else dow

/-! ## RtcDS1302.h -/

def DS1302_REG_TIMEDATE_BURST : Nat := 0xbe
def DS1302_REG_TCR : Nat := 0x90
def DS1302_REG_RAM_BURST : Nat := 0xfe
def DS1302_REG_RAMSTART : Nat := 0xc0
def DS1302_REG_RAMEND : Nat := 0xfd
def DS1302RamSize : Nat := 31

def DS1302TcrResistor_Disabled : Nat := 0b00000000
def DS1302TcrResistor_MASK : Nat := 0b00000011
def DS1302TcrDiodes_None : Nat := 0b00000000
def DS1302TcrDiodes_Disabled : Nat := 0b00001100
def DS1302TcrDiodes_MASK : Nat := 0b00001100
def DS1302TcrStatus_Enabled : Nat := 0b10100000
def DS1302TcrStatus_Disabled : Nat := 0b01010000
def DS1302TcrStatus_MASK : Nat := 0b11110000

/-- `DS1302Tcr_Disabled`: the disabled status, diode and resistor fields or-ed. -/
def DS1302Tcr_Disabled : Nat :=
  DS1302TcrStatus_Disabled ||| DS1302TcrDiodes_Disabled ||| DS1302TcrResistor_Disabled

def DS1302_REG_CH : Nat := 0x80
def DS1302_CH : Nat := 7
def DS1302_REG_WP : Nat := 0x8e
def DS1302_WP : Nat := 7

/-- `uint8_t RtcDS1302::getReg(uint8_t regAddress)`. -/
def RtcDS1302.getReg (wire : ThreeWire) (regAddress : Nat) : Nat × ThreeWire :=
  let wire := wire.beginTransmission (regAddress ||| THREEWIRE_READFLAG)
  let r := wire.read
  (r.1, r.2.endTransmission)

/-- `void RtcDS1302::setReg(uint8_t regAddress, uint8_t regValue)`. -/
def RtcDS1302.setReg (wire : ThreeWire) (regAddress regValue : Nat) : ThreeWire :=
  ((wire.beginTransmission regAddress).write regValue).endTransmission

/-- `bool RtcDS1302::GetIsWriteProtected()`. -/
def RtcDS1302.GetIsWriteProtected (wire : ThreeWire) : Bool × ThreeWire :=
  let r := RtcDS1302.getReg wire DS1302_REG_WP
  (r.1 &&& _BV DS1302_WP != 0, r.2)

/-- `void RtcDS1302::SetIsWriteProtected(bool isWriteProtected)`; `wp &= ~mask`
clears the mask bit of the 8-bit value. The declaration of `mask` lacks its
`;` in the source text and is read as written with it. -/
def RtcDS1302.SetIsWriteProtected (wire : ThreeWire) (isWriteProtected : Bool) : ThreeWire :=
  let r := RtcDS1302.getReg wire DS1302_REG_WP
  let mask := _BV DS1302_WP
  let wp := if isWriteProtected then (r.1 ||| mask) % 256 else r.1 &&& (mask ^^^ 0xff)
  RtcDS1302.setReg r.2 DS1302_REG_WP wp

/-- `bool RtcDS1302::GetIsRunning()`. -/
def RtcDS1302.GetIsRunning (wire : ThreeWire) : Bool × ThreeWire :=
  let r := RtcDS1302.getReg wire DS1302_REG_CH
  (r.1 &&& _BV DS1302_CH == 0, r.2)

/-- `void RtcDS1302::SetIsRunning(bool isRunning)`; the declaration of `mask`
lacks its `;` in the source text and is read as written with it. -/
def RtcDS1302.SetIsRunning (wire : ThreeWire) (isRunning : Bool) : ThreeWire :=
  let r := RtcDS1302.getReg wire DS1302_REG_CH
  let mask := _BV DS1302_CH
  let ch := if isRunning then r.1 &&& (mask ^^^ 0xff) else (r.1 ||| mask) % 256
  RtcDS1302.setReg r.2 DS1302_REG_CH ch

/-- `void RtcDS1302::SetTrickleChargeSettings(uint8_t setting)`. -/
def RtcDS1302.SetTrickleChargeSettings (wire : ThreeWire) (setting : Nat) : ThreeWire :=
  let setting :=
    if setting &&& DS1302TcrResistor_MASK = DS1302TcrResistor_Disabled
        ∨ setting &&& DS1302TcrDiodes_MASK = DS1302TcrDiodes_Disabled
        ∨ setting &&& DS1302TcrDiodes_MASK = DS1302TcrDiodes_None
        ∨ setting &&& DS1302TcrStatus_MASK ≠ DS1302TcrStatus_Enabled
    then DS1302Tcr_Disabled else setting
  RtcDS1302.setReg wire DS1302_REG_TCR setting

/-- `void RtcDS1302::SetDateTime(const RtcDateTime& dt)`: one burst write of
eight bytes. `Second()`, `Minute()`, `Hour()`, `Day()`, `Month()` and `Year()`
are the field accessors of `RtcDateTime.h`. -/
def RtcDS1302.SetDateTime (wire : ThreeWire) (dt : RtcDateTime) : ThreeWire :=
  let wire := wire.beginTransmission DS1302_REG_TIMEDATE_BURST
  let wire := wire.write (Uint8ToBcd dt.second)
  let wire := wire.write (Uint8ToBcd dt.minute)
  let wire := wire.write (Uint8ToBcd dt.hour)
  let wire := wire.write (Uint8ToBcd dt.dayOfMonth)
  let wire := wire.write (Uint8ToBcd dt.month)
  let rtcDow := ConvertDowToRtc (DayOfWeek dt)
  let wire := wire.write (Uint8ToBcd rtcDow)
  let wire := wire.write (Uint8ToBcd ((dt.Year - 2000) % 256))
  let wire := wire.write 0
  wire.endTransmission

/-- `RtcDateTime RtcDS1302::GetDateTime()`: one burst read of eight bytes, the
sixth (day of week) and the eighth (write protect) thrown away. -/
def RtcDS1302.GetDateTime (wire : ThreeWire) : RtcDateTime × ThreeWire :=
  let wire := wire.beginTransmission (DS1302_REG_TIMEDATE_BURST ||| THREEWIRE_READFLAG)
  let r := wire.read
  let second := BcdToUint8 (r.1 &&& 0x7f)
  let r := r.2.read
  let minute := BcdToUint8 r.1
  let r := r.2.read
  let hour := BcdToBin24Hour r.1
  let r := r.2.read
  let dayOfMonth := BcdToUint8 r.1
  let r := r.2.read
  let month := BcdToUint8 r.1
  let r := r.2.read
  let r := r.2.read
  let year := BcdToUint8 r.1 + 2000
  let r := r.2.read
  let wire := r.2.endTransmission
  (RtcDateTime.ofFields year month dayOfMonth hour minute second, wire)

/-- `void RtcDS1302::SetMemory(uint8_t memoryAddress, uint8_t value)`; the
address is computed in `int` and stored in a `uint8_t`. -/
def RtcDS1302.SetMemory (wire : ThreeWire) (memoryAddress value : Nat) : ThreeWire :=
  let address := (memoryAddress * 2 + DS1302_REG_RAMSTART) % 256
  if address ≤ DS1302_REG_RAMEND then RtcDS1302.setReg wire address value else wire

/-- `uint8_t RtcDS1302::GetMemory(uint8_t memoryAddress)`. -/
def RtcDS1302.GetMemory (wire : ThreeWire) (memoryAddress : Nat) : Nat × ThreeWire :=
  let address := (memoryAddress * 2 + DS1302_REG_RAMSTART) % 256
  if address ≤ DS1302_REG_RAMEND then RtcDS1302.getReg wire address else (0, wire)

/-- The loop `while (countBytes--) _wire.write(*pValue++);` on the three-wire
bus. A read of `*pValue` past the end of the caller's buffer is undefined in C
and yields 0 here. -/
def ThreeWire.writeBytes : Nat → List Nat → ThreeWire → ThreeWire
  | 0, _, wire => wire
  | countBytes + 1, pValue, wire =>
    ThreeWire.writeBytes countBytes pValue.tail (wire.write (pValue.headD 0))

/-- The loop `while (countBytes--) *pValue++ = _wire.read();` on the three-wire
bus; the result is the bytes stored through `pValue`, in order. -/
def ThreeWire.readBytes : Nat → ThreeWire → List Nat × ThreeWire
  | 0, wire => ([], wire)
  | countBytes + 1, wire =>
    let r := wire.read
    let rest := ThreeWire.readBytes countBytes r.2
    (r.1 :: rest.1, rest.2)

/-- `uint8_t RtcDS1302::SetMemory(const uint8_t* pValue, uint8_t countBytes)`. -/
def RtcDS1302.SetMemoryBlock (wire : ThreeWire) (pValue : List Nat) (countBytes : Nat) :
    Nat × ThreeWire :=
  let countBytes := if countBytes > DS1302RamSize then DS1302RamSize else countBytes
  let countWritten := countBytes
  let wire := wire.beginTransmission DS1302_REG_RAM_BURST
  let wire := ThreeWire.writeBytes countBytes pValue wire
  (countWritten, wire.endTransmission)

/-- `uint8_t RtcDS1302::GetMemory(uint8_t* pValue, uint8_t countBytes)`; the
result is the count returned and the bytes stored through `pValue`. -/
def RtcDS1302.GetMemoryBlock (wire : ThreeWire) (countBytes : Nat) :
    (Nat × List Nat) × ThreeWire :=
  let countBytes := if countBytes > DS1302RamSize then DS1302RamSize else countBytes
  let countRead := countBytes
  let wire := wire.beginTransmission (DS1302_REG_RAM_BURST ||| THREEWIRE_READFLAG)
  let r := ThreeWire.readBytes countBytes wire
  ((countRead, r.1), r.2.endTransmission)

/-! ## RtcDS1307.h -/

def DS1307_ADDRESS : Nat := 0x68
def DS1307_REG_TIMEDATE : Nat := 0x00
def DS1307_REG_STATUS : Nat := 0x00
def DS1307_REG_CONTROL : Nat := 0x07
def DS1307_REG_RAMSTART : Nat := 0x08
def DS1307_REG_RAMEND : Nat := 0x3f
def DS1307_REG_RAMSIZE : Nat := DS1307_REG_RAMEND - DS1307_REG_RAMSTART
def DS1307_REG_TIMEDATE_SIZE : Nat := 7
def DS1307_CH : Nat := 7

/-- The chip B driver object: its bus and the member `_lastError`. -/
structure RtcDS1307 where
  wire : TwoWire
  lastError : Nat
deriving DecidableEq, Repr

/-- `uint8_t RtcDS1307::LastError()`. -/
def RtcDS1307.LastError (rtc : RtcDS1307) : Nat := rtc.lastError

/-- `uint8_t RtcDS1307::getReg(uint8_t regAddress)`. -/
def RtcDS1307.getReg (rtc : RtcDS1307) (regAddress : Nat) : Nat × RtcDS1307 :=
  let wire := rtc.wire.beginTransmission DS1307_ADDRESS
  let wire := wire.write regAddress
  let e := wire.endTransmission
  if e.1 ≠ 0 then (0, { wire := e.2, lastError := e.1 })
  else
    let q := e.2.requestFrom DS1307_ADDRESS 1
    if q.1 ≠ 1 then (0, { wire := q.2, lastError := 4 })
    else
      let r := q.2.read
      (r.1, { wire := r.2, lastError := e.1 })

/-- `void RtcDS1307::setReg(uint8_t regAddress, uint8_t regValue)`. -/
def RtcDS1307.setReg (rtc : RtcDS1307) (regAddress regValue : Nat) : RtcDS1307 :=
  let wire := rtc.wire.beginTransmission DS1307_ADDRESS
  let wire := wire.write regAddress
  let wire := wire.write regValue
  let e := wire.endTransmission
  { wire := e.2, lastError := e.1 }

/-- `bool RtcDS1307::GetIsRunning()`. -/
def RtcDS1307.GetIsRunning (rtc : RtcDS1307) : Bool × RtcDS1307 :=
  let r := RtcDS1307.getReg rtc DS1307_REG_STATUS
  (r.1 &&& _BV DS1307_CH == 0 && r.2.lastError == 0, r.2)

/-- `bool RtcDS1307::IsDateTimeValid()`. -/
def RtcDS1307.IsDateTimeValid (rtc : RtcDS1307) : Bool × RtcDS1307 :=
  RtcDS1307.GetIsRunning rtc

/-- `void RtcDS1307::SetIsRunning(bool isRunning)`. -/
def RtcDS1307.SetIsRunning (rtc : RtcDS1307) (isRunning : Bool) : RtcDS1307 :=
  let r := RtcDS1307.getReg rtc DS1307_REG_STATUS
  let mask := _BV DS1307_CH
  let sreg := if isRunning then r.1 &&& (mask ^^^ 0xff) else (r.1 ||| mask) % 256
  RtcDS1307.setReg r.2 DS1307_REG_STATUS sreg

/-- `void RtcDS1307::SetDateTime(const RtcDateTime& dt)`: the clock-halt bit of
the status register is read first and or-ed into the seconds byte. -/
def RtcDS1307.SetDateTime (rtc : RtcDS1307) (dt : RtcDateTime) : RtcDS1307 :=
  let r := RtcDS1307.getReg rtc DS1307_REG_STATUS
  let sreg := r.1 &&& _BV DS1307_CH
  let wire := r.2.wire.beginTransmission DS1307_ADDRESS
  let wire := wire.write DS1307_REG_TIMEDATE
  let wire := wire.write (Uint8ToBcd dt.second ||| sreg)
  let wire := wire.write (Uint8ToBcd dt.minute)
  let wire := wire.write (Uint8ToBcd dt.hour)
  let rtcDow := ConvertDowToRtc (DayOfWeek dt)
  let wire := wire.write (Uint8ToBcd rtcDow)
  let wire := wire.write (Uint8ToBcd dt.dayOfMonth)
  let wire := wire.write (Uint8ToBcd dt.month)
  let wire := wire.write (Uint8ToBcd ((dt.Year - 2000) % 256))
  let e := wire.endTransmission
  { wire := e.2, lastError := e.1 }

/-- `RtcDateTime RtcDS1307::GetDateTime()`. The statement
`if (_lastError) RtcDateTime(0);` builds a temporary and discards it: it has no
`return`, so control always goes on to `requestFrom`. -/
def RtcDS1307.GetDateTime (rtc : RtcDS1307) : RtcDateTime × RtcDS1307 :=
  let wire := rtc.wire.beginTransmission DS1307_ADDRESS
  let wire := wire.write DS1307_REG_TIMEDATE
  let e := wire.endTransmission
  let q := e.2.requestFrom DS1307_ADDRESS DS1307_REG_TIMEDATE_SIZE
  if q.1 ≠ DS1307_REG_TIMEDATE_SIZE then
    (RtcDateTime.fromSeconds 0, { wire := q.2, lastError := 4 })
  else
    let r := q.2.read
    let second := BcdToUint8 (r.1 &&& 0x7f)
    let r := r.2.read
    let minute := BcdToUint8 r.1
    let r := r.2.read
    let hour := BcdToBin24Hour r.1
    let r := r.2.read
    let r := r.2.read
    let dayOfMonth := BcdToUint8 r.1
    let r := r.2.read
    let month := BcdToUint8 r.1
    let r := r.2.read
    let year := BcdToUint8 r.1 + 2000
    (RtcDateTime.ofFields year month dayOfMonth hour minute second,
     { wire := r.2, lastError := e.1 })

/-- `void RtcDS1307::SetMemory(uint8_t memoryAddress, uint8_t value)`; the
address is computed in `int` and stored in a `uint8_t`. -/
def RtcDS1307.SetMemory (rtc : RtcDS1307) (memoryAddress value : Nat) : RtcDS1307 :=
  let address := (memoryAddress + DS1307_REG_RAMSTART) % 256
  if address ≤ DS1307_REG_RAMEND then RtcDS1307.setReg rtc address value else rtc

/-- `uint8_t RtcDS1307::GetMemory(uint8_t memoryAddress)`. -/
def RtcDS1307.GetMemory (rtc : RtcDS1307) (memoryAddress : Nat) : Nat × RtcDS1307 :=
  let address := (memoryAddress + DS1307_REG_RAMSTART) % 256
  if address ≤ DS1307_REG_RAMEND then RtcDS1307.getReg rtc address else (0, rtc)

/-- The loop `while (countBytes--) _wire.write(*pValue++);` on the two-wire
bus. A read of `*pValue` past the end of the caller's buffer is undefined in C
and yields 0 here. -/
def TwoWire.writeBytes : Nat → List Nat → TwoWire → TwoWire
  | 0, _, wire => wire
  | countBytes + 1, pValue, wire =>
    TwoWire.writeBytes countBytes pValue.tail (wire.write (pValue.headD 0))

/-- The loop `while (countBytes--) *pValue++ = _wire.read();` on the two-wire
bus; the result is the bytes stored through `pValue`, in order. -/
def TwoWire.readBytes : Nat → TwoWire → List Nat × TwoWire
  | 0, wire => ([], wire)
  | countBytes + 1, wire =>
    let r := wire.read
    let rest := TwoWire.readBytes countBytes r.2
    (r.1 :: rest.1, rest.2)

/-- `uint8_t RtcDS1307::SetMemory(uint8_t memoryAddress, const uint8_t* pValue,
uint8_t countBytes)`; `address + countBytes` is an `int` sum. -/
def RtcDS1307.SetMemoryBlock (rtc : RtcDS1307) (memoryAddress : Nat) (pValue : List Nat)
    (countBytes : Nat) : Nat × RtcDS1307 :=
  let address := (memoryAddress + DS1307_REG_RAMSTART) % 256
  if address > DS1307_REG_RAMEND then (0, rtc)
  else
    let countBytes :=
      if address + countBytes > DS1307_REG_RAMEND then DS1307_REG_RAMEND - address
      else countBytes
    let countWritten := countBytes
    let wire := rtc.wire.beginTransmission DS1307_ADDRESS
    let wire := wire.write address
    let wire := TwoWire.writeBytes countBytes pValue wire
    let e := wire.endTransmission
    (countWritten, { wire := e.2, lastError := e.1 })

/-- `uint8_t RtcDS1307::GetMemory(uint8_t memoryAddress, uint8_t* pValue,
uint8_t countBytes)`; the result is the count returned and the bytes stored
through `pValue`. -/
def RtcDS1307.GetMemoryBlock (rtc : RtcDS1307) (memoryAddress countBytes : Nat) :
    (Nat × List Nat) × RtcDS1307 :=
  let address := (memoryAddress + DS1307_REG_RAMSTART) % 256
  if address > DS1307_REG_RAMEND then ((0, []), rtc)
  else
    let countBytes := if countBytes > DS1307_REG_RAMSIZE then DS1307_REG_RAMSIZE else countBytes
    let wire := rtc.wire.beginTransmission DS1307_ADDRESS
    let wire := wire.write address
    let e := wire.endTransmission
    if e.1 ≠ 0 then ((0, []), { wire := e.2, lastError := e.1 })
    else
      let q := e.2.requestFrom DS1307_ADDRESS countBytes
      let r := TwoWire.readBytes q.1 q.2
      ((q.1, r.1), { wire := r.2, lastError := e.1 })

/-! ## Bus-level notions used by the claims -/

/-- The data bytes of a log: the values of its `write` calls, in order. -/
def writtenBytes : List WireEvent → List Nat
  | [] => []
  | WireEvent.write value :: rest => value :: writtenBytes rest
  | _ :: rest => writtenBytes rest

/-- A three-wire bus at rest that will answer `read()` with the given bytes. -/
def ThreeWire.answering (incoming : List Nat) : ThreeWire :=
  { log := [], incoming := incoming }

/-- A chip B driver on a bus at rest; the bus will answer with the given
end-transmission statuses, request-from counts and bytes. -/
def RtcDS1307.answering (endStatus received incoming : List Nat) : RtcDS1307 :=
  { wire := { log := [], endStatus := endStatus, received := received, incoming := incoming },
    lastError := 0 }

/-- The registers of chip A that command bytes of a log address: each
`beginTransmission` names one register, read flag included. -/
def addressedRegisters : List WireEvent → List Nat
  | [] => []
  | WireEvent.beginTransmission address :: rest => address :: addressedRegisters rest
  | _ :: rest => addressedRegisters rest

/-- The bytes a chip hands to a burst read after a burst write of `bytes`: the
same bytes in the same order, except that the weekday byte (at `weekdayIndex`)
and bit 7 of the first byte, the seconds, may be anything. -/
def asReadBack (bytes : List Nat) (weekdayIndex weekday : Nat) (halt : Bool) : List Nat :=
  (bytes.set weekdayIndex weekday).set 0 (bytes.headD 0 % 128 + (if halt then 128 else 0))

/-! ## RtcDateTime.cpp: text constructors

A C string is the list of its bytes up to the terminating NUL; the empty list
stands at the NUL, and a byte read past the list is the NUL (0). -/

/-- The first loop of `StringToUint8`:
`while (*pString == '0' || *pString == ' ') ++pString;` (48 is `'0'`, 32 is
`' '`). -/
def skipZerosAndSpaces : List Nat → List Nat
  | [] => []
  | c :: rest => if c = 48 ∨ c = 32 then skipZerosAndSpaces rest else c :: rest

/-- The second loop of `StringToUint8`:
`while (*pString >= '0' && *pString <= '9') { value *= 10; value += *pString - '0'; ++pString; }`
on the `uint8_t value` (48 is `'0'`, 57 is `'9'`). -/
def accumulateDigits (value : Nat) : List Nat → Nat
  | [] => value
  | c :: rest =>
    if 48 ≤ c ∧ c ≤ 57 then accumulateDigits ((value * 10 % 256 + (c - 48)) % 256) rest
    else value

/-- `uint8_t StringToUint8(const char* pString)`. -/
def StringToUint8 (pString : List Nat) : Nat :=
  accumulateDigits 0 (skipZerosAndSpaces pString)

/-- The `switch` on the first letter of the month abbreviation, shared by both
text constructors: `first`, `second`, `third` are the three letters. No case
matches another first letter and the switch has no default, so `_month` keeps
whatever it held, `unset`. -/
def monthOfLetters (first second third unset : Nat) : Nat :=
  if first = 'J'.toNat then
    if second = 'a'.toNat then 1 else if third = 'n'.toNat then 6 else 7
  else if first = 'F'.toNat then 2
  else if first = 'A'.toNat then (if second = 'p'.toNat then 4 else 8)
  else if first = 'M'.toNat then (if third = 'r'.toNat then 3 else 5)
  else if first = 'S'.toNat then 9
  else if first = 'O'.toNat then 10
  else if first = 'N'.toNat then 11
  else if first = 'D'.toNat then 12
  else unset

/-- `RtcDateTime::RtcDateTime(const char* date, const char* time)`, for input
such as date "Dec 06 2009" and time "12:34:56"; `unset` is the indeterminate
content of `_month` before the switch. -/
def RtcDateTime.ofDateTimeText (date time : List Nat) (unset : Nat) : RtcDateTime :=
  { yearFrom2000 := StringToUint8 (date.drop 9),
    month := monthOfLetters (date.getD 0 0) (date.getD 1 0) (date.getD 2 0) unset,
    dayOfMonth := StringToUint8 (date.drop 4),
    hour := StringToUint8 time,
    minute := StringToUint8 (time.drop 3),
    second := StringToUint8 (time.drop 6) }

/-- The English three-letter abbreviation of a month 1..12, as bytes. -/
def monthAbbreviation (month : Nat) : List Nat :=
  ([['J', 'a', 'n'], ['F', 'e', 'b'], ['M', 'a', 'r'], ['A', 'p', 'r'], ['M', 'a', 'y'],
    ['J', 'u', 'n'], ['J', 'u', 'l'], ['A', 'u', 'g'], ['S', 'e', 'p'], ['O', 'c', 't'],
    ['N', 'o', 'v'], ['D', 'e', 'c']].getD (month - 1) []).map Char.toNat

/-- A number below 100 rendered in two characters, the tens place of a
one-digit number filled with `pad` (`'0'` or `' '`). -/
def twoCharacters (pad n : Nat) : List Nat :=
  [if n < 10 then pad else 48 + n / 10, 48 + n % 10]

/-- A year rendered in four decimal digits. -/
def fourDigits (year : Nat) : List Nat :=
  [48 + year / 1000 % 10, 48 + year / 100 % 10, 48 + year / 10 % 10, 48 + year % 10]

/-- The date rendered as "Mon dd yyyy", the day padded with `pad`. -/
def renderDate (pad : Nat) (dt : RtcDateTime) : List Nat :=
  monthAbbreviation dt.month ++ [32] ++ twoCharacters pad dt.dayOfMonth ++ [32]
    ++ fourDigits dt.Year

/-- The time rendered as "hh:mm:ss" (58 is `':'`). -/
def renderTime (dt : RtcDateTime) : List Nat :=
  twoCharacters 48 dt.hour ++ [58] ++ twoCharacters 48 dt.minute ++ [58]
    ++ twoCharacters 48 dt.second

/-- Where the loops of `StringToUint8` stop: at the NUL, or at a byte that is
neither a digit nor a space. -/
def StopsParsing (rest : List Nat) : Prop :=
  rest = [] ∨ ∃ c cs, rest = c :: cs ∧ c ≠ 32 ∧ ¬ (48 ≤ c ∧ c ≤ 57)

/-- Where the digit loop of `StringToUint8` stops: at the NUL, or at a byte
that is not a digit. -/
def StopsDigits (rest : List Nat) : Prop :=
  rest = [] ∨ ∃ c cs, rest = c :: cs ∧ ¬ (48 ≤ c ∧ c ≤ 57)

/-- `void RtcDateTime::InitWithIso8601(const char* date)`, for input such as
"Sat, 06 Dec 2009 12:34:56 GMT". The method assigns the members of an existing
object, so a month the `switch` does not set keeps its value in `self`. -/
def RtcDateTime.InitWithIso8601 (self : RtcDateTime) (date : List Nat) : RtcDateTime :=
  { yearFrom2000 := StringToUint8 (date.drop 13),
    month := monthOfLetters (date.getD 8 0) (date.getD (1 + 8) 0) (date.getD (2 + 8) 0)
      self.month,
    dayOfMonth := StringToUint8 (date.drop 5),
    hour := StringToUint8 (date.drop 17),
    minute := StringToUint8 (date.drop 20),
    second := StringToUint8 (date.drop 23) }

/-- The date-time rendered in the fixed-width layout
"Ddd, dd Mon yyyy hh:mm:ss TZT": `weekday` and `zone` are the three bytes of
the weekday and of the time zone abbreviation, the numbers are zero-padded
(44 is `','`, 32 is `' '`, 58 is `':'`). -/
def renderIso8601 (weekday zone : List Nat) (dt : RtcDateTime) : List Nat :=
  weekday ++ [44, 32] ++ twoCharacters 48 dt.dayOfMonth ++ [32]
    ++ monthAbbreviation dt.month ++ [32] ++ fourDigits dt.Year ++ [32]
    ++ twoCharacters 48 dt.hour ++ [58] ++ twoCharacters 48 dt.minute ++ [58]
    ++ twoCharacters 48 dt.second ++ [32] ++ zone

/-- The bytes of a text. -/
def bytesOf (text : String) : List Nat :=
  text.toList.map Char.toNat

/-! ## RtcTemperature.h -/

/-- Narrowing of an integer to `int16_t` (two's complement wrap). -/
def toInt16 (x : Int) : Int :=
  (x + 32768) % 65536 - 32768

/-- `#define HIGH_LOW_TO_DEG_C(hi, lo)
(((((int16_t)hi) << 8 | (((int16_t)lo) & 0xc0) >> 6)) * 100 / 4)`, as C parses
it: both shifts bind tighter than `|`, so the operands of `|` are `hi << 8` and
`(lo & 0xc0) >> 6`. `hi` is an `int8_t` value, `lo` a `uint8_t` value; the
expression is evaluated in `int` (taken to be 32 bits wide, two's complement):
the shift and the `|` work on the bit pattern, `* 100` and `/ 4` on the signed
value, `/` truncating towards zero. -/
def HIGH_LOW_TO_DEG_C (hi : Int) (lo : Nat) : Int :=
  let shifted : Nat := (hi % 2 ^ 32).toNat * 2 ^ 8 % 2 ^ 32
  let merged : Nat := shifted ||| ((lo &&& 0xc0) >>> 6)
  let value : Int := if merged < 2 ^ 31 then (merged : Int) else (merged : Int) - 2 ^ 32
  (value * 100).tdiv 4

/-- The temperature value: the member `_centiDegC`, an `int16_t`. -/
structure RtcTemperature where
  centiDegC : Int
deriving DecidableEq, Repr

/-- `RtcTemperature::RtcTemperature(int8_t highByteDegreesC, uint8_t
lowByteDegreesC)`. The macro argument is spelt `lowByteDegressC` in the source
text; it is read as the parameter `lowByteDegreesC`. The macro value is
narrowed to the `int16_t` member. -/
def RtcTemperature.ofRegisters (highByteDegreesC : Int) (lowByteDegreesC : Nat) :
    RtcTemperature :=
  { centiDegC := toInt16 (HIGH_LOW_TO_DEG_C highByteDegreesC lowByteDegreesC) }

/-- `int16_t RtcTemperature::AsCentiDegC() const`. -/
def RtcTemperature.AsCentiDegC (t : RtcTemperature) : Int :=
  t.centiDegC

/-- The register temperature in hundredths of a degree: whole degrees in the
high byte, quarter degrees in the top two bits of the low byte. -/
def registerCentiDegC (highByteDegreesC : Int) (lowByteDegreesC : Nat) : Int :=
  25 * (4 * highByteDegreesC + ((lowByteDegreesC >>> 6 : Nat) : Int))

/-! ## Chronological order -/

/-- Lexicographic order of (year, month, day-of-month, hour, minute, second). -/
def chronoLt (a b : RtcDateTime) : Prop :=
  a.yearFrom2000 < b.yearFrom2000 ∨ (a.yearFrom2000 = b.yearFrom2000 ∧
  (a.month < b.month ∨ (a.month = b.month ∧
  (a.dayOfMonth < b.dayOfMonth ∨ (a.dayOfMonth = b.dayOfMonth ∧
  (a.hour < b.hour ∨ (a.hour = b.hour ∧
  (a.minute < b.minute ∨ (a.minute = b.minute ∧ a.second < b.second)))))))))

instance (a b : RtcDateTime) : Decidable (chronoLt a b) :=
  inferInstanceAs (Decidable (_ ∨ _))

/-! ## Theorems: BCD codec -/

theorem BcdToUint8_sub_exact (val : Nat) : 6 * (val >>> 4) ≤ val := by
  rw [Nat.shiftRight_eq_div_pow]
  have : val / 2 ^ 4 * 2 ^ 4 ≤ val := Nat.div_mul_le_self val (2 ^ 4)
  omega

/-- C1: for every n in 0..99, decoding the BCD encoding of n gives n back, and
the encoding carries n/10 in its high nibble and n%10 in its low nibble. -/
theorem bcd_roundtrip (n : Nat) (h : n ≤ 99) :
    BcdToUint8 (Uint8ToBcd n) = n ∧
    Uint8ToBcd n >>> 4 = n / 10 ∧
    Uint8ToBcd n &&& 0x0f = n % 10 := by
  have key : ∀ k < 100, BcdToUint8 (Uint8ToBcd k) = k ∧
      Uint8ToBcd k >>> 4 = k / 10 ∧ Uint8ToBcd k &&& 0x0f = k % 10 := by
    decide
  exact key n (by omega)

theorem bcd_roundtrip_witness :
    BcdToUint8 (Uint8ToBcd 59) = 59 ∧
    Uint8ToBcd 59 >>> 4 = 59 / 10 ∧
    Uint8ToBcd 59 &&& 0x0f = 59 % 10 :=
  bcd_roundtrip 59 (by decide)

/-- C9: for every hour h in 0..23, decoding the 24-hour BCD encoding of h with
the hour-register decoder gives h back. -/
theorem hour_roundtrip (h : Nat) (hh : h ≤ 23) :
    BcdToBin24Hour (Uint8ToBcd h) = h := by
  have key : ∀ k < 24, BcdToBin24Hour (Uint8ToBcd k) = k := by decide
  exact key h (by omega)

theorem hour_roundtrip_witness : BcdToBin24Hour (Uint8ToBcd 23) = 23 :=
  hour_roundtrip 23 (by decide)

/-- For the 12-hour values 1..11 the decoder agrees with the standard
conversion; only twelve o'clock is treated differently. -/
theorem BcdToBin24Hour_12h_below_twelve (h12 : Nat) (pm : Bool)
    (h1 : 1 ≤ h12) (h2 : h12 ≤ 11) :
    BcdToBin24Hour (hourRegister12 h12 pm) = hour12To24 h12 pm := by
  have key : ∀ k < 12, ∀ b : Bool, 1 ≤ k →
      BcdToBin24Hour (hourRegister12 k b) = hour12To24 k b := by decide
  exact key h12 (by omega) pm h1

/-- C10 (the code at the failing inputs): the register byte for 12 PM (0x72)
decodes to 24 where the standard conversion gives 12, and the byte for 12 AM
(0x52) decodes to 12 where the standard conversion gives 0. -/
theorem BcdToBin24Hour_twelve_oclock :
    hourRegister12 12 true = 0x72 ∧ BcdToBin24Hour 0x72 = 24 ∧
    hour12To24 12 true = 12 ∧
    hourRegister12 12 false = 0x52 ∧ BcdToBin24Hour 0x52 = 12 ∧
    hour12To24 12 false = 0 := by
  decide

/-! ## Theorems: validity -/

theorem IS_LEAP_YEAR_iff (y : Nat) : IS_LEAP_YEAR y = true ↔ isGregorianLeapYear y := by
  simp [IS_LEAP_YEAR, isGregorianLeapYear]

/-- The macro gives the same answer on the absolute year and on the stored
offset from 2000, so either reading of `_year` yields the same `IsValid`
calendar check. -/
theorem IS_LEAP_YEAR_offset (y : Nat) :
    IS_LEAP_YEAR (2000 + y) = IS_LEAP_YEAR y := by
  have h4 : (2000 + y) % 4 = y % 4 := by omega
  have h100 : (2000 + y) % 100 = y % 100 := by omega
  have h400 : (2000 + y) % 400 = y % 400 := by omega
  simp only [IS_LEAP_YEAR, h4, h100, h400]

theorem IsValid_eq_false_of_second (dt : RtcDateTime) (hs : 60 ≤ dt.second) :
    IsValid dt = false := by
  have h : dt.second > 59 := by omega
  simp [IsValid, h]

theorem IsValid_calendar (dt : RtcDateTime) (hs : dt.second ≤ 59) :
    IsValid dt = true ↔ validCalendar dt := by
  obtain ⟨y, mo, d, h, mi, s⟩ := dt
  simp only at hs
  have hs60 : s ≠ 60 := by omega
  by_cases hg : isGregorianLeapYear (2000 + y)
  all_goals
    have hleap := IS_LEAP_YEAR_iff (2000 + y)
    by_cases hmo : 1 ≤ mo ∧ mo ≤ 12
    · obtain ⟨h1, h2⟩ := hmo
      interval_cases mo <;>
        simp [IsValid, validCalendar, BETWEEN_INCL, monthLength, RtcDateTime.Year,
          IS_30_DAY_MONTH, Int.tmod, hs, hs60, hleap, hg] <;>
        omega
    · simp [IsValid, validCalendar, BETWEEN_INCL]
      omega

/-- What the code accepts, in full: a valid calendar date and time with a
second of at most 59. -/
theorem IsValid_true_iff (dt : RtcDateTime) :
    IsValid dt = true ↔ validCalendar dt ∧ dt.second ≤ 59 := by
  by_cases hs : dt.second ≤ 59
  · rw [IsValid_calendar dt hs]; tauto
  · have := IsValid_eq_false_of_second dt (by omega)
    simp [this, hs]

/-- C2: for a calendar value with second at most 59, IsValid returns true
exactly when the month is in 1..12, the hour at most 23, the minute at most 59
and the day-of-month in 1..L, L the Gregorian length of the month in that
year. -/
theorem IsValid_iff_validCalendar (dt : RtcDateTime) (hs : dt.second ≤ 59) :
    IsValid dt = true ↔
      1 ≤ dt.month ∧ dt.month ≤ 12 ∧ dt.hour ≤ 23 ∧ dt.minute ≤ 59 ∧
      1 ≤ dt.dayOfMonth ∧ dt.dayOfMonth ≤ monthLength dt.Year dt.month :=
  IsValid_calendar dt hs

theorem IsValid_iff_validCalendar_witness :
    IsValid ⟨0, 2, 29, 0, 0, 0⟩ = true ∧
    (IsValid ⟨1, 2, 29, 0, 0, 0⟩ = true ↔ 29 ≤ monthLength 2001 2) ∧
    monthLength 2001 2 = 28 ∧
    (IsValid ⟨100, 2, 29, 0, 0, 0⟩ = true ↔ 29 ≤ monthLength 2100 2) ∧
    monthLength 2100 2 = 28 :=
  ⟨(IsValid_iff_validCalendar ⟨0, 2, 29, 0, 0, 0⟩ (by decide)).mpr (by decide),
   (IsValid_iff_validCalendar ⟨1, 2, 29, 0, 0, 0⟩ (by decide)).trans (by decide),
   by decide,
   (IsValid_iff_validCalendar ⟨100, 2, 29, 0, 0, 0⟩ (by decide)).trans (by decide),
   by decide⟩

/-- C3 (the code at the failing inputs): 2012 is in the mid-year table and 2016
in the year-end table, yet IsValid returns false for 2012-06-30 23:59:60 and
for 2016-12-31 23:59:60; the table lookup itself accepts the first and rejects
the second. -/
theorem IsValid_rejects_tabulated_leap_second :
    legalLeapSecond ⟨12, 6, 30, 23, 59, 60⟩ ∧
    IsValidLeapSecond ⟨12, 6, 30, 23, 59, 60⟩ = true ∧
    IsValid ⟨12, 6, 30, 23, 59, 60⟩ = false ∧
    legalLeapSecond ⟨16, 12, 31, 23, 59, 60⟩ ∧
    IsValidLeapSecond ⟨16, 12, 31, 23, 59, 60⟩ = false ∧
    IsValid ⟨16, 12, 31, 23, 59, 60⟩ = false := by
  decide

/-- C4: a calendar value with second at least 60 that is not a legal leap
second (second 60 at 23:59 on June 30 of a mid-year table year or December 31
of a year-end table year) is never valid. -/
theorem IsValid_illegal_leap_second (dt : RtcDateTime) (hs : 60 ≤ dt.second)
    (_hillegal : ¬ legalLeapSecond dt) : IsValid dt = false :=
  IsValid_eq_false_of_second dt hs

theorem IsValid_illegal_leap_second_witness :
    IsValid ⟨0, 6, 30, 23, 59, 60⟩ = false ∧ IsValid ⟨12, 6, 30, 23, 59, 61⟩ = false :=
  ⟨IsValid_illegal_leap_second ⟨0, 6, 30, 23, 59, 60⟩ (by decide) (by decide),
   IsValid_illegal_leap_second ⟨12, 6, 30, 23, 59, 61⟩ (by decide) (by decide)⟩

/-! ## Theorems: day and second counts -/

theorem foldl_add_mod (M : Nat) (f : Nat → Nat) (l : List Nat) (init : Nat)
    (h : init + (l.map f).sum < M) :
    l.foldl (fun acc i => (acc + f i) % M) init = init + (l.map f).sum := by
  induction l generalizing init with
  | nil => simp
  | cons a t ih =>
    simp only [List.map_cons, List.sum_cons] at h
    simp only [List.foldl_cons, List.map_cons, List.sum_cons]
    rw [Nat.mod_eq_of_lt (by omega), ih _ (by omega)]
    omega

theorem daysBeforeMonth_sum :
    ∀ month < 13, ((List.range' 1 (month - 1)).map
      fun indexMonth => c_daysInMonth.getD (indexMonth - 1) 0).sum = daysBeforeMonth month := by
  decide

theorem daysBeforeMonth_le (month : Nat) : daysBeforeMonth month ≤ 334 := by
  by_cases h : month < 13
  · revert month; decide
  · unfold daysBeforeMonth
    rw [List.getD_eq_default]
    · omega
    · simp; omega

/-- The month loop and the final sum of `DaysSinceFirstOfYear2000` in closed
form, for a month in range and a day small enough that the loop cannot wrap. -/
theorem DaysSince_eq (w year month dayOfMonth : Nat)
    (hm : month ≤ 12) (hd1 : 1 ≤ dayOfMonth) (hd2 : dayOfMonth + 335 < 2 ^ w) :
    DaysSinceFirstOfYear2000 w year month dayOfMonth
      = daysExact year month dayOfMonth % 2 ^ w := by
  have hle := daysBeforeMonth_le month
  have hsum := daysBeforeMonth_sum month (by omega)
  have hd : dayOfMonth % 2 ^ w = dayOfMonth := Nat.mod_eq_of_lt (by omega)
  have hfold := foldl_add_mod (2 ^ w) (fun indexMonth => c_daysInMonth.getD (indexMonth - 1) 0)
    (List.range' 1 (month - 1)) dayOfMonth (by rw [hsum]; omega)
  rw [hsum] at hfold
  simp only at hfold
  unfold DaysSinceFirstOfYear2000 daysExact
  simp only [hd, hfold]
  generalize 2 ^ w = M at *
  split
  · have h1 : (dayOfMonth + daysBeforeMonth month + 1) % M
        = dayOfMonth + daysBeforeMonth month + 1 := Nat.mod_eq_of_lt (by omega)
    have h2 : dayOfMonth + daysBeforeMonth month + 1 + 365 * year + (year + 3) / 4 + M - 1 =
       dayOfMonth + daysBeforeMonth month + 1 + 365 * year + (year + 3) / 4 - 1 + M := by omega
    rw [h1, h2, Nat.add_mod_right]
  · have h2 : dayOfMonth + daysBeforeMonth month + 365 * year + (year + 3) / 4 + M - 1 =
       dayOfMonth + daysBeforeMonth month + 0 + 365 * year + (year + 3) / 4 - 1 + M := by omega
    rw [h2, Nat.add_mod_right]

theorem pow16 : (2 : Nat) ^ 16 = 65536 := by norm_num
theorem pow32 : (2 : Nat) ^ 32 = 4294967296 := by norm_num
theorem pow64 : (2 : Nat) ^ 64 = 18446744073709551616 := by norm_num

theorem monthLength_le (year month : Nat) : monthLength year month ≤ 31 := by
  unfold monthLength
  split_ifs <;> omega

theorem IsValid_bounds (dt : RtcDateTime) (hv : IsValid dt = true) :
    1 ≤ dt.month ∧ dt.month ≤ 12 ∧ 1 ≤ dt.dayOfMonth ∧ dt.dayOfMonth ≤ 31 ∧
    dt.hour ≤ 23 ∧ dt.minute ≤ 59 ∧ dt.second ≤ 59 := by
  obtain ⟨⟨h1, h2, h3, h4, h5, h6⟩, h7⟩ := (IsValid_true_iff dt).mp hv
  have := monthLength_le dt.Year dt.month
  omega

theorem daysExact_le (year month dayOfMonth : Nat) (hd : dayOfMonth ≤ 31) :
    daysExact year month dayOfMonth ≤ 365 + 365 * year + (year + 3) / 4 := by
  have hle := daysBeforeMonth_le month
  unfold daysExact
  split <;> omega

theorem DaysSince16_eq (year month dayOfMonth : Nat)
    (hm : month ≤ 12) (hd1 : 1 ≤ dayOfMonth) (hd2 : dayOfMonth ≤ 31) :
    DaysSinceFirstOfYear2000 16 year month dayOfMonth
      = daysExact year month dayOfMonth % 65536 := by
  rw [DaysSince_eq 16 year month dayOfMonth hm hd1 (by rw [pow16]; omega), pow16]

theorem DaysSince32_eq (year month dayOfMonth : Nat)
    (hm : month ≤ 12) (hd1 : 1 ≤ dayOfMonth) (hd2 : dayOfMonth ≤ 31) :
    DaysSinceFirstOfYear2000 32 year month dayOfMonth
      = daysExact year month dayOfMonth % 4294967296 := by
  rw [DaysSince_eq 32 year month dayOfMonth hm hd1 (by rw [pow32]; omega), pow32]

/-- C8: for every valid calendar value (fields in their 8-bit range), if the
64-bit second count is below 2^32 then the 32-bit count, computed from 16-bit
days, equals it. -/
theorem TotalSeconds_eq_TotalSeconds64 (dt : RtcDateTime) (hr : dt.InRange)
    (hv : IsValid dt = true) (hfit : TotalSeconds64 dt < 2 ^ 32) :
    TotalSeconds dt = TotalSeconds64 dt := by
  obtain ⟨hm1, hm2, hd1, hd2, hh, hmi, hs⟩ := IsValid_bounds dt hv
  have hy : dt.yearFrom2000 < 256 := hr.1
  have hle := daysExact_le dt.yearFrom2000 dt.month dt.dayOfMonth hd2
  unfold TotalSeconds64 SecondsIn at hfit
  unfold TotalSeconds TotalSeconds64 SecondsIn
  dsimp only at hfit ⊢
  rw [DaysSince32_eq _ _ _ hm2 hd1 hd2, pow64, pow32] at hfit
  rw [DaysSince32_eq _ _ _ hm2 hd1 hd2, DaysSince16_eq _ _ _ hm2 hd1 hd2, pow64, pow32]
  generalize daysExact dt.yearFrom2000 dt.month dt.dayOfMonth = D at *
  have hD : D ≤ 93505 := by omega
  have e1 : D % 4294967296 = D := Nat.mod_eq_of_lt (by omega)
  have e2 : D % 18446744073709551616 = D := Nat.mod_eq_of_lt (by omega)
  have e3 : (((D * 24 + dt.hour) * 60 + dt.minute) * 60 + dt.second) % 18446744073709551616
      = ((D * 24 + dt.hour) * 60 + dt.minute) * 60 + dt.second :=
    Nat.mod_eq_of_lt (by omega)
  rw [e1, e2, e3] at hfit
  have e4 : D % 65536 = D := Nat.mod_eq_of_lt (by omega)
  rw [e1, e2, e3, e4, e1]
  exact Nat.mod_eq_of_lt hfit

theorem TotalSeconds_eq_TotalSeconds64_witness :
    TotalSeconds ⟨136, 2, 6, 6, 28, 15⟩ = TotalSeconds64 ⟨136, 2, 6, 6, 28, 15⟩ :=
  TotalSeconds_eq_TotalSeconds64 ⟨136, 2, 6, 6, 28, 15⟩ (by decide) (by decide) (by decide)

theorem daysBeforeMonth_values :
    daysBeforeMonth 1 = 0 ∧ daysBeforeMonth 2 = 31 ∧ daysBeforeMonth 3 = 59 ∧
    daysBeforeMonth 4 = 90 ∧ daysBeforeMonth 5 = 120 ∧ daysBeforeMonth 6 = 151 ∧
    daysBeforeMonth 7 = 181 ∧ daysBeforeMonth 8 = 212 ∧ daysBeforeMonth 9 = 243 ∧
    daysBeforeMonth 10 = 273 ∧ daysBeforeMonth 11 = 304 ∧ daysBeforeMonth 12 = 334 := by
  decide

/-- Through 2099 the 16-bit day count does not wrap. -/
theorem DaysSince16_exact (dt : RtcDateTime) (hv : IsValid dt = true)
    (hy : dt.yearFrom2000 ≤ 99) :
    DaysSinceFirstOfYear2000 16 dt.yearFrom2000 dt.month dt.dayOfMonth
      = daysExact dt.yearFrom2000 dt.month dt.dayOfMonth := by
  obtain ⟨hm1, hm2, hd1, hd2, hh, hmi, hs⟩ := IsValid_bounds dt hv
  have hle := daysExact_le dt.yearFrom2000 dt.month dt.dayOfMonth hd2
  rw [DaysSince16_eq _ _ _ hm2 hd1 hd2]
  exact Nat.mod_eq_of_lt (by omega)

theorem zeller_century (y : Nat) (hy : y ≤ 99) (h0 : y ≠ 0) :
    (2000 + y) % 100 = y ∧ (2000 + y) / 100 = 20 ∧
    (2000 + y - 1) % 100 = y - 1 ∧ (2000 + y - 1) / 100 = 20 := by
  omega

/-- The code's day count and Zeller's congruence agree modulo 7 through 2099. -/
theorem daysExact_zeller (y mo d : Nat) (hy : y ≤ 99) (hm1 : 1 ≤ mo) (hm2 : mo ≤ 12)
    (hd1 : 1 ≤ d) :
    (daysExact y mo d + 6) % 7 = zellerWeekday (2000 + y) mo d := by
  obtain ⟨b1, b2, b3, b4, b5, b6, b7, b8, b9, b10, b11, b12⟩ := daysBeforeMonth_values
  unfold zellerWeekday daysExact
  dsimp only
  by_cases h0 : y = 0
  · subst h0
    interval_cases mo <;>
      simp only [b1, b2, b3, b4, b5, b6, b7, b8, b9, b10, b11, b12] <;>
      norm_num <;> omega
  · obtain ⟨c1, c2, c3, c4⟩ := zeller_century y hy h0
    have e1 : (y + 3) / 4 = (y - 1) / 4 + 1 := by omega
    by_cases h4 : y % 4 = 0
    · have e2 : (y + 3) / 4 = y / 4 := by omega
      interval_cases mo <;>
        simp only [b1, b2, b3, b4, b5, b6, b7, b8, b9, b10, b11, b12, Nat.reduceLT, ↓reduceIte,
          c1, c2, c3, c4, h4, gt_iff_lt, and_true, and_false, true_and, false_and] <;>
        omega
    · have e2 : (y + 3) / 4 = y / 4 + 1 := by omega
      interval_cases mo <;>
        simp only [b1, b2, b3, b4, b5, b6, b7, b8, b9, b10, b11, b12, Nat.reduceLT, ↓reduceIte,
          c1, c2, c3, c4, h4, gt_iff_lt, and_true, and_false, true_and, false_and] <;>
        omega

/-- C6: for every valid calendar value with year 2000..2099, DayOfWeek is in
0..6 and equals the Gregorian weekday (Zeller's congruence, 0 = Sunday ...
6 = Saturday); 2000-01-01 00:00:00 gives 6, Saturday. -/
theorem DayOfWeek_eq_zeller (dt : RtcDateTime) (hv : IsValid dt = true)
    (hy : dt.yearFrom2000 ≤ 99) :
    DayOfWeek dt ≤ 6 ∧
    DayOfWeek dt = zellerWeekday dt.Year dt.month dt.dayOfMonth ∧
    DayOfWeek ⟨0, 1, 1, 0, 0, 0⟩ = 6 := by
  obtain ⟨hm1, hm2, hd1, hd2, hh, hmi, hs⟩ := IsValid_bounds dt hv
  have hD := DaysSince16_exact dt hv hy
  have hz := daysExact_zeller dt.yearFrom2000 dt.month dt.dayOfMonth hy hm1 hm2 hd1
  have hlt : (daysExact dt.yearFrom2000 dt.month dt.dayOfMonth + 6) % 7 < 7 :=
    Nat.mod_lt _ (by decide)
  have hdow : DayOfWeek dt = (daysExact dt.yearFrom2000 dt.month dt.dayOfMonth + 6) % 7 := by
    unfold DayOfWeek
    dsimp only
    rw [hD]
    exact Nat.mod_eq_of_lt (by omega)
  refine ⟨by omega, ?_, by decide⟩
  rw [hdow, hz, RtcDateTime.Year]

theorem DayOfWeek_eq_zeller_witness :
    DayOfWeek ⟨26, 11, 1, 12, 0, 0⟩ ≤ 6 ∧
    DayOfWeek ⟨26, 11, 1, 12, 0, 0⟩ = zellerWeekday 2026 11 1 ∧
    DayOfWeek ⟨0, 1, 1, 0, 0, 0⟩ = 6 :=
  DayOfWeek_eq_zeller ⟨26, 11, 1, 12, 0, 0⟩ (by decide) (by decide)


/-! ## Theorems: construction from seconds -/

theorem peelMonths_spec (leapDays month d : Nat) (hl : leapDays < 2)
    (hm1 : 1 ≤ month) (hm2 : month ≤ 12)
    (hd : d < c_daysInMonth.getD (month - 1) 0 + (if leapDays ≠ 0 ∧ month = 2 then 1 else 0)) :
    peelMonths leapDays 12 1
        (daysBeforeMonth month + (if month > 2 ∧ leapDays ≠ 0 then 1 else 0) + d)
      = (month, d) ∧
    daysBeforeMonth month + (if month > 2 ∧ leapDays ≠ 0 then 1 else 0) + d
      < 365 + leapDays := by
  revert d
  interval_cases leapDays <;> interval_cases month <;> decide

theorem monthLength_eq_table (y month : Nat) (hy : y ≤ 99) (hm1 : 1 ≤ month) (hm2 : month ≤ 12) :
    monthLength (2000 + y) month
      = c_daysInMonth.getD (month - 1) 0
        + (if (if y % 4 = 0 then 1 else 0) ≠ 0 ∧ month = 2 then 1 else 0) := by
  have hg : isGregorianLeapYear (2000 + y) ↔ y % 4 = 0 := by
    unfold isGregorianLeapYear; omega
  by_cases h4 : y % 4 = 0 <;>
    interval_cases month <;> simp [monthLength, c_daysInMonth, hg, h4]

/-- Through 2099 neither the 16-bit day count nor the 32-bit second count
wraps. -/
theorem TotalSeconds_exact (dt : RtcDateTime) (hv : IsValid dt = true)
    (hy : dt.yearFrom2000 ≤ 99) :
    TotalSeconds dt
      = ((daysExact dt.yearFrom2000 dt.month dt.dayOfMonth * 24 + dt.hour) * 60
          + dt.minute) * 60 + dt.second := by
  obtain ⟨hm1, hm2, hd1, hd2, hh, hmi, hs⟩ := IsValid_bounds dt hv
  have hle := daysExact_le dt.yearFrom2000 dt.month dt.dayOfMonth hd2
  unfold TotalSeconds SecondsIn
  dsimp only
  rw [DaysSince16_exact dt hv hy, pow32]
  generalize daysExact dt.yearFrom2000 dt.month dt.dayOfMonth = D at *
  have hD : D ≤ 36525 := by omega
  rw [Nat.mod_eq_of_lt (show D < 4294967296 by omega)]
  exact Nat.mod_eq_of_lt (by omega)

theorem daysExact_next_month (y mo : Nat) (hy : y ≤ 99) (hm1 : 1 ≤ mo) (hm2 : mo < 12) :
    daysExact y (mo + 1) 1 = daysExact y mo (monthLength (2000 + y) mo) + 1 := by
  obtain ⟨b1, b2, b3, b4, b5, b6, b7, b8, b9, b10, b11, b12⟩ := daysBeforeMonth_values
  have hg : isGregorianLeapYear (2000 + y) ↔ y % 4 = 0 := by
    unfold isGregorianLeapYear; omega
  unfold daysExact
  by_cases h4 : y % 4 = 0 <;>
    interval_cases mo <;>
    simp [monthLength, hg, h4, b1, b2, b3, b4, b5, b6, b7, b8, b9, b10, b11, b12] <;>
    omega

set_option maxRecDepth 100000 in
theorem trickle_coercion_table : ∀ s < 256,
    (if s &&& DS1302TcrResistor_MASK = DS1302TcrResistor_Disabled
        ∨ s &&& DS1302TcrDiodes_MASK = DS1302TcrDiodes_Disabled
        ∨ s &&& DS1302TcrDiodes_MASK = DS1302TcrDiodes_None
        ∨ s &&& DS1302TcrStatus_MASK ≠ DS1302TcrStatus_Enabled
      then DS1302Tcr_Disabled else s)
    = (if s ∈ [0xA5, 0xA6, 0xA7, 0xA9, 0xAA, 0xAB] then s else 0x5C) := by
  decide

/-- C14: for every byte s, SetTrickleChargeSettings(s) performs one register
write, to the trickle-charge register 0x90, of a single byte: s itself when s
is one of 0xA5, 0xA6, 0xA7, 0xA9, 0xAA, 0xAB, and the disabled byte 0x5C
otherwise. -/
theorem SetTrickleChargeSettings_writes (wire : ThreeWire) (s : Nat) (hs : s < 256) :
    (RtcDS1302.SetTrickleChargeSettings wire s).log
      = wire.log ++
        [WireEvent.beginTransmission 0x90,
         WireEvent.write (if s ∈ [0xA5, 0xA6, 0xA7, 0xA9, 0xAA, 0xAB] then s else 0x5C),
         WireEvent.endTransmission] := by
  have key := trickle_coercion_table s hs
  simp only [RtcDS1302.SetTrickleChargeSettings, RtcDS1302.setReg, ThreeWire.beginTransmission,
    ThreeWire.write, ThreeWire.endTransmission, key, DS1302_REG_TCR, List.append_assoc,
    List.cons_append, List.nil_append]

theorem SetTrickleChargeSettings_writes_witness :
    (RtcDS1302.SetTrickleChargeSettings (ThreeWire.answering []) 0xA4).log
      = (ThreeWire.answering []).log ++
        [WireEvent.beginTransmission 0x90,
         WireEvent.write (if 0xA4 ∈ [0xA5, 0xA6, 0xA7, 0xA9, 0xAA, 0xAB] then 0xA4 else 0x5C),
         WireEvent.endTransmission] :=
  SetTrickleChargeSettings_writes (ThreeWire.answering []) 0xA4 (by decide)


theorem ThreeWire.writeBytes_eq (countBytes : Nat) : ∀ (pValue : List Nat) (wire : ThreeWire),
    countBytes ≤ pValue.length →
    ThreeWire.writeBytes countBytes pValue wire
      = { wire with log := wire.log ++ (pValue.take countBytes).map WireEvent.write } := by
  induction countBytes with
  | zero => intro pValue wire _; simp [ThreeWire.writeBytes]
  | succ n ih =>
    intro pValue wire h
    cases pValue with
    | nil => simp at h
    | cons b rest =>
      simp only [List.length_cons, Nat.add_le_add_iff_right] at h
      simp [ThreeWire.writeBytes, ih rest _ h, ThreeWire.write]

theorem ThreeWire.readBytes_length (countBytes : Nat) : ∀ wire : ThreeWire,
    (ThreeWire.readBytes countBytes wire).1.length = countBytes := by
  induction countBytes with
  | zero => intro wire; simp [ThreeWire.readBytes]
  | succ n ih => intro wire; simp [ThreeWire.readBytes, ih]

theorem ThreeWire.readBytes_eq (countBytes : Nat) : ∀ wire : ThreeWire,
    countBytes ≤ wire.incoming.length → (∀ b ∈ wire.incoming, b < 256) →
    ThreeWire.readBytes countBytes wire
      = (wire.incoming.take countBytes,
         { log := wire.log ++ (wire.incoming.take countBytes).map WireEvent.read,
           incoming := wire.incoming.drop countBytes }) := by
  induction countBytes with
  | zero => intro wire _ _; simp [ThreeWire.readBytes]
  | succ n ih =>
    intro wire h hb
    obtain ⟨log, incoming⟩ := wire
    cases incoming with
    | nil => simp at h
    | cons b rest =>
      simp only [List.length_cons, Nat.add_le_add_iff_right] at h
      have hb0 : b % 256 = b := Nat.mod_eq_of_lt (hb b (by simp))
      have hrest : ∀ x ∈ rest, x < 256 := fun x hx => hb x (by simp [hx])
      have key := ih { log := log ++ [WireEvent.read b], incoming := rest } h hrest
      simp [ThreeWire.readBytes, ThreeWire.read, hb0, key]

/-- C16: block SetMemory on chip A writes the first min(n, 31) bytes of the
buffer, in order, in one burst transaction to 0xFE and returns min(n, 31);
block GetMemory reads min(n, 31) bytes in one burst transaction from 0xFF,
stores them in order and returns min(n, 31). For n = 50 the count is 31. The
caller's buffer holds the n bytes it asks to write, and the chip has the bytes
to answer the read. -/
theorem DS1302_block_memory_clamps (wire : ThreeWire) (pValue : List Nat) (n : Nat)
    (hbuf : n ≤ pValue.length)
    (hin : min n 31 ≤ wire.incoming.length) (hbytes : ∀ b ∈ wire.incoming, b < 256) :
    RtcDS1302.SetMemoryBlock wire pValue n
      = (min n 31,
         { wire with log := wire.log ++ [WireEvent.beginTransmission 0xfe]
             ++ (pValue.take (min n 31)).map WireEvent.write
             ++ [WireEvent.endTransmission] }) ∧
    RtcDS1302.GetMemoryBlock wire n
      = ((min n 31, wire.incoming.take (min n 31)),
         { log := wire.log ++ [WireEvent.beginTransmission 0xff]
             ++ (wire.incoming.take (min n 31)).map WireEvent.read
             ++ [WireEvent.endTransmission],
           incoming := wire.incoming.drop (min n 31) }) ∧
    min 50 31 = 31 := by
  have hclamp : (if n > DS1302RamSize then DS1302RamSize else n) = min n 31 := by
    unfold DS1302RamSize; split <;> omega
  refine ⟨?_, ?_, by decide⟩
  · unfold RtcDS1302.SetMemoryBlock
    simp only [hclamp]
    rw [ThreeWire.writeBytes_eq _ _ _ (by
      have : min n 31 ≤ n := Nat.min_le_left _ _
      omega)]
    simp [ThreeWire.beginTransmission, ThreeWire.endTransmission, DS1302_REG_RAM_BURST]
  · unfold RtcDS1302.GetMemoryBlock
    simp only [hclamp]
    rw [ThreeWire.readBytes_eq _ _ (by simpa [ThreeWire.beginTransmission] using hin)
      (by simpa [ThreeWire.beginTransmission] using hbytes)]
    simp [ThreeWire.beginTransmission, ThreeWire.endTransmission, DS1302_REG_RAM_BURST,
      THREEWIRE_READFLAG]

theorem DS1302_block_memory_clamps_witness :
    RtcDS1302.SetMemoryBlock (ThreeWire.answering (List.replicate 31 7))
        (List.range 50) 50
      = (min 50 31,
         { ThreeWire.answering (List.replicate 31 7) with
           log := (ThreeWire.answering (List.replicate 31 7)).log
             ++ [WireEvent.beginTransmission 0xfe]
             ++ ((List.range 50).take (min 50 31)).map WireEvent.write
             ++ [WireEvent.endTransmission] }) ∧
    RtcDS1302.GetMemoryBlock (ThreeWire.answering (List.replicate 31 7)) 50
      = ((min 50 31, (ThreeWire.answering (List.replicate 31 7)).incoming.take (min 50 31)),
         { log := (ThreeWire.answering (List.replicate 31 7)).log
             ++ [WireEvent.beginTransmission 0xff]
             ++ ((ThreeWire.answering (List.replicate 31 7)).incoming.take (min 50 31)).map
                  WireEvent.read
             ++ [WireEvent.endTransmission],
           incoming := (ThreeWire.answering (List.replicate 31 7)).incoming.drop (min 50 31) }) ∧
    min 50 31 = 31 :=
  DS1302_block_memory_clamps (ThreeWire.answering (List.replicate 31 7)) (List.range 50) 50
    (by decide) (by decide) (by decide)

/-! ## Theorems: flags and validity -/

set_option maxRecDepth 100000 in
theorem flag_setters_table : ∀ r < 256, ∀ flag : Bool,
    (RtcDS1302.SetIsRunning (ThreeWire.answering [r]) flag).log
      = [WireEvent.beginTransmission 0x81, WireEvent.read r, WireEvent.endTransmission,
         WireEvent.beginTransmission 0x80,
         WireEvent.write (r % 128 + (if flag then 0 else 128)),
         WireEvent.endTransmission] ∧
    (RtcDS1302.GetIsRunning
        (ThreeWire.answering [r % 128 + (if flag then 0 else 128)])).1 = flag ∧
    (RtcDS1302.SetIsWriteProtected (ThreeWire.answering [r]) flag).log
      = [WireEvent.beginTransmission 0x8f, WireEvent.read r, WireEvent.endTransmission,
         WireEvent.beginTransmission 0x8e,
         WireEvent.write (r % 128 + (if flag then 128 else 0)),
         WireEvent.endTransmission] ∧
    (RtcDS1302.GetIsWriteProtected
        (ThreeWire.answering [r % 128 + (if flag then 128 else 0)])).1 = flag ∧
    (RtcDS1307.SetIsRunning (RtcDS1307.answering [0, 0] [1] [r]) flag).wire.log
      = [WireEvent.beginTransmission 0x68, WireEvent.write 0x00, WireEvent.endTransmission,
         WireEvent.requestFrom 0x68 1, WireEvent.read r,
         WireEvent.beginTransmission 0x68, WireEvent.write 0x00,
         WireEvent.write (r % 128 + (if flag then 0 else 128)),
         WireEvent.endTransmission] ∧
    (RtcDS1307.GetIsRunning
        (RtcDS1307.answering [0] [1] [r % 128 + (if flag then 0 else 128)])).1 = flag := by
  decide

/-- C18: on chip A SetIsRunning and SetIsWriteProtected, and on chip B
SetIsRunning, when the register read returns byte r, the byte written back to
the same register keeps bits 0..6 of r and has bit 7 equal to (not isRunning),
respectively to isWriteProtected; the matching getter reading that byte back
returns the value that was set. -/
theorem flag_setters_read_modify_write (r : Nat) (hr : r < 256) (flag : Bool) :
    (RtcDS1302.SetIsRunning (ThreeWire.answering [r]) flag).log
      = [WireEvent.beginTransmission 0x81, WireEvent.read r, WireEvent.endTransmission,
         WireEvent.beginTransmission 0x80,
         WireEvent.write (r % 128 + (if flag then 0 else 128)),
         WireEvent.endTransmission] ∧
    (RtcDS1302.GetIsRunning
        (ThreeWire.answering [r % 128 + (if flag then 0 else 128)])).1 = flag ∧
    (RtcDS1302.SetIsWriteProtected (ThreeWire.answering [r]) flag).log
      = [WireEvent.beginTransmission 0x8f, WireEvent.read r, WireEvent.endTransmission,
         WireEvent.beginTransmission 0x8e,
         WireEvent.write (r % 128 + (if flag then 128 else 0)),
         WireEvent.endTransmission] ∧
    (RtcDS1302.GetIsWriteProtected
        (ThreeWire.answering [r % 128 + (if flag then 128 else 0)])).1 = flag ∧
    (RtcDS1307.SetIsRunning (RtcDS1307.answering [0, 0] [1] [r]) flag).wire.log
      = [WireEvent.beginTransmission 0x68, WireEvent.write 0x00, WireEvent.endTransmission,
         WireEvent.requestFrom 0x68 1, WireEvent.read r,
         WireEvent.beginTransmission 0x68, WireEvent.write 0x00,
         WireEvent.write (r % 128 + (if flag then 0 else 128)),
         WireEvent.endTransmission] ∧
    (RtcDS1307.GetIsRunning
        (RtcDS1307.answering [0] [1] [r % 128 + (if flag then 0 else 128)])).1 = flag :=
  flag_setters_table r hr flag

theorem flag_setters_read_modify_write_witness :
    (RtcDS1302.SetIsRunning (ThreeWire.answering [0x59]) false).log
      = [WireEvent.beginTransmission 0x81, WireEvent.read 0x59, WireEvent.endTransmission,
         WireEvent.beginTransmission 0x80, WireEvent.write 0xd9,
         WireEvent.endTransmission] ∧
    (RtcDS1302.GetIsRunning (ThreeWire.answering [0xd9])).1 = false :=
  ⟨(flag_setters_read_modify_write 0x59 (by decide) false).1,
   (flag_setters_read_modify_write 0x59 (by decide) false).2.1⟩

/-- What `getReg` of chip B does, in terms of the three answers of the bus. -/
theorem RtcDS1307.getReg_cases (rtc : RtcDS1307) (reg : Nat) :
    (rtc.wire.endStatus.headD 0 % 256 = 0 ∧ rtc.wire.received.headD 0 % 256 = 1 ∧
      (RtcDS1307.getReg rtc reg).1 = rtc.wire.incoming.headD 0 % 256 ∧
      (RtcDS1307.getReg rtc reg).2.lastError = 0) ∨
    (¬ (rtc.wire.endStatus.headD 0 % 256 = 0 ∧ rtc.wire.received.headD 0 % 256 = 1) ∧
      (RtcDS1307.getReg rtc reg).1 = 0 ∧
      (RtcDS1307.getReg rtc reg).2.lastError ≠ 0) := by
  by_cases h1 : rtc.wire.endStatus.headD 0 % 256 = 0
  · by_cases h2 : rtc.wire.received.headD 0 % 256 = 1
    · left
      simp only [RtcDS1307.getReg, TwoWire.endTransmission, TwoWire.beginTransmission,
        TwoWire.write, TwoWire.requestFrom, TwoWire.read, h1, h2, ne_eq, not_true_eq_false,
        if_false, and_self]
    · right
      simp only [RtcDS1307.getReg, TwoWire.endTransmission, TwoWire.beginTransmission,
        TwoWire.write, TwoWire.requestFrom, TwoWire.read, h1, h2, ne_eq, not_true_eq_false,
        not_false_eq_true, if_false, if_true, and_false, and_true, true_and]
      decide
  · right
    simp only [RtcDS1307.getReg, TwoWire.endTransmission, TwoWire.beginTransmission,
      TwoWire.write, TwoWire.requestFrom, TwoWire.read, h1, ne_eq, not_false_eq_true,
      if_true, false_and, and_self]

/-- The calls `getReg` of chip B makes: the address phase naming the register,
then, only after a status of 0, the request for one byte, and the read only
when exactly one byte was received. -/
theorem RtcDS1307.getReg_log (rtc : RtcDS1307) (reg : Nat) :
    (RtcDS1307.getReg rtc reg).2.wire.log
      = rtc.wire.log
        ++ [WireEvent.beginTransmission 0x68, WireEvent.write reg, WireEvent.endTransmission]
        ++ (if rtc.wire.endStatus.headD 0 % 256 = 0 then
              WireEvent.requestFrom 0x68 1 ::
                (if rtc.wire.received.headD 0 % 256 = 1 then
                  [WireEvent.read (rtc.wire.incoming.headD 0 % 256)]
                else [])
            else []) := by
  by_cases h1 : rtc.wire.endStatus.headD 0 % 256 = 0
  · by_cases h2 : rtc.wire.received.headD 0 % 256 = 1
    · simp only [RtcDS1307.getReg, TwoWire.endTransmission, TwoWire.beginTransmission,
        TwoWire.write, TwoWire.requestFrom, TwoWire.read, DS1307_ADDRESS, h1, h2, ne_eq,
        not_true_eq_false, if_false, if_true, List.append_assoc, List.cons_append,
        List.nil_append]
    · simp only [RtcDS1307.getReg, TwoWire.endTransmission, TwoWire.beginTransmission,
        TwoWire.write, TwoWire.requestFrom, TwoWire.read, DS1307_ADDRESS, h1, h2, ne_eq,
        not_true_eq_false, not_false_eq_true, if_false, if_true, List.append_assoc,
        List.cons_append, List.nil_append]
  · simp only [RtcDS1307.getReg, TwoWire.endTransmission, TwoWire.beginTransmission,
      TwoWire.write, TwoWire.requestFrom, TwoWire.read, DS1307_ADDRESS, h1, ne_eq,
      not_false_eq_true, if_false, if_true, List.append_assoc, List.cons_append,
      List.nil_append, List.append_nil]

/-- C19: on chip B, IsDateTimeValid reads the status register 0x00 (address
phase to 0x68 naming register 0x00, then a request for one byte) and returns
true exactly when that read completes without error (end-transmission status 0
and exactly one byte received) and bit 7 of the byte read is clear; and either
that read completes without error, or IsDateTimeValid returns false and
LastError is non-zero afterwards. -/
theorem DS1307_IsDateTimeValid_iff (rtc : RtcDS1307) :
    (RtcDS1307.IsDateTimeValid rtc).2.wire.log
      = rtc.wire.log
        ++ [WireEvent.beginTransmission 0x68, WireEvent.write 0x00, WireEvent.endTransmission]
        ++ (if rtc.wire.endStatus.headD 0 % 256 = 0 then
              WireEvent.requestFrom 0x68 1 ::
                (if rtc.wire.received.headD 0 % 256 = 1 then
                  [WireEvent.read (rtc.wire.incoming.headD 0 % 256)]
                else [])
            else []) ∧
    ((RtcDS1307.IsDateTimeValid rtc).1 = true ↔
      rtc.wire.endStatus.headD 0 % 256 = 0 ∧ rtc.wire.received.headD 0 % 256 = 1 ∧
      (rtc.wire.incoming.headD 0 % 256) &&& 0x80 = 0) ∧
    ((rtc.wire.endStatus.headD 0 % 256 = 0 ∧ rtc.wire.received.headD 0 % 256 = 1) ∨
      ((RtcDS1307.IsDateTimeValid rtc).1 = false ∧
       0 < (RtcDS1307.IsDateTimeValid rtc).2.LastError)) := by
  have hbv : _BV DS1307_CH = 0x80 := by decide
  have hlog := RtcDS1307.getReg_log rtc DS1307_REG_STATUS
  unfold RtcDS1307.IsDateTimeValid RtcDS1307.GetIsRunning RtcDS1307.LastError
  refine ⟨hlog, ?_⟩
  rcases RtcDS1307.getReg_cases rtc DS1307_REG_STATUS with ⟨h1, h2, h3, h4⟩ | ⟨h1, h2, h3⟩
  · refine ⟨?_, Or.inl ⟨h1, h2⟩⟩
    simp only [h3, h4, hbv, h1, h2, true_and, beq_self_eq_true, Bool.and_true, beq_iff_eq]
  · have hpos : 0 < (RtcDS1307.getReg rtc DS1307_REG_STATUS).2.lastError :=
      Nat.pos_of_ne_zero h3
    have hne : ((RtcDS1307.getReg rtc DS1307_REG_STATUS).2.lastError == 0) = false := by
      simpa using h3
    refine ⟨?_, Or.inr ⟨?_, hpos⟩⟩
    · simp only [hne, Bool.and_false]
      constructor
      · intro h; exact absurd h (by decide)
      · intro h; exact absurd ⟨h.1, h.2.1⟩ h1
    · simp only [hne, Bool.and_false]

/-! ## Theorems: chip B time set and time read -/

set_option maxRecDepth 100000 in
theorem halt_bit_table : ∀ s < 256,
    ((s &&& 128 = 0 ∧ s / 128 = 0) ∨ (s &&& 128 = 128 ∧ s / 128 = 1)) ∧
    (RtcDS1307.GetIsRunning (RtcDS1307.answering [0] [1] [s])).1 = decide (s / 128 = 0) := by
  decide

set_option maxRecDepth 100000 in
theorem or_halt_bit_table : ∀ a < 128, a ||| 0 = a ∧ a ||| 128 = a + 128 := by
  decide

theorem Uint8ToBcd_second_lt : ∀ second < 60, Uint8ToBcd second < 128 := by
  decide

theorem DS1307_SetDateTime_seconds_byte (dt : RtcDateTime) (s : Nat) :
    (writtenBytes (RtcDS1307.SetDateTime (RtcDS1307.answering [0, 0] [1] [s]) dt).wire.log).getD
        2 0
      = Uint8ToBcd dt.second ||| (s % 256 &&& 128) := by
  simp [RtcDS1307.SetDateTime, RtcDS1307.getReg, RtcDS1307.answering, TwoWire.endTransmission,
    TwoWire.beginTransmission, TwoWire.write, TwoWire.requestFrom, TwoWire.read, writtenBytes,
    _BV, DS1307_CH]

theorem DS1307_SetDateTime_log (dt : RtcDateTime) (s : Nat) (hs : s < 256) :
    (RtcDS1307.SetDateTime (RtcDS1307.answering [0, 0] [1] [s]) dt).wire.log
      = [WireEvent.beginTransmission 0x68, WireEvent.write 0x00, WireEvent.endTransmission,
         WireEvent.requestFrom 0x68 1, WireEvent.read s,
         WireEvent.beginTransmission 0x68, WireEvent.write 0x00,
         WireEvent.write (Uint8ToBcd dt.second ||| (s &&& 0x80)),
         WireEvent.write (Uint8ToBcd dt.minute),
         WireEvent.write (Uint8ToBcd dt.hour),
         WireEvent.write (Uint8ToBcd (ConvertDowToRtc (DayOfWeek dt))),
         WireEvent.write (Uint8ToBcd dt.dayOfMonth),
         WireEvent.write (Uint8ToBcd dt.month),
         WireEvent.write (Uint8ToBcd ((dt.Year - 2000) % 256)),
         WireEvent.endTransmission] := by
  have hmod : s % 256 = s := Nat.mod_eq_of_lt hs
  simp [RtcDS1307.SetDateTime, RtcDS1307.getReg, RtcDS1307.answering, TwoWire.endTransmission,
    TwoWire.beginTransmission, TwoWire.write, TwoWire.requestFrom, TwoWire.read,
    _BV, DS1307_CH, DS1307_ADDRESS, DS1307_REG_STATUS, DS1307_REG_TIMEDATE, hmod]

/-- C12: on chip B, for a valid calendar value, SetDateTime first reads the
status register 0x00 and, the read having returned byte s, writes its burst at
register 0x00 with the seconds byte `Uint8ToBcd(second) | (s & 0x80)` first;
that byte has bit 7 equal to bit 7 of s and its low seven bits equal to the
BCD of the second; GetIsRunning, which reads register 0x00, gives the same
answer on that byte as on s. -/
theorem DS1307_SetDateTime_keeps_running_state (dt : RtcDateTime) (hv : IsValid dt = true)
    (s : Nat) (hs : s < 256) :
    (RtcDS1307.SetDateTime (RtcDS1307.answering [0, 0] [1] [s]) dt).wire.log
      = [WireEvent.beginTransmission 0x68, WireEvent.write 0x00, WireEvent.endTransmission,
         WireEvent.requestFrom 0x68 1, WireEvent.read s,
         WireEvent.beginTransmission 0x68, WireEvent.write 0x00,
         WireEvent.write (Uint8ToBcd dt.second ||| (s &&& 0x80)),
         WireEvent.write (Uint8ToBcd dt.minute),
         WireEvent.write (Uint8ToBcd dt.hour),
         WireEvent.write (Uint8ToBcd (ConvertDowToRtc (DayOfWeek dt))),
         WireEvent.write (Uint8ToBcd dt.dayOfMonth),
         WireEvent.write (Uint8ToBcd dt.month),
         WireEvent.write (Uint8ToBcd ((dt.Year - 2000) % 256)),
         WireEvent.endTransmission] ∧
    (Uint8ToBcd dt.second ||| (s &&& 0x80)) / 128 = s / 128 ∧
    (Uint8ToBcd dt.second ||| (s &&& 0x80)) % 128 = Uint8ToBcd dt.second ∧
    (RtcDS1307.GetIsRunning (RtcDS1307.answering [0] [1]
        [Uint8ToBcd dt.second ||| (s &&& 0x80)])).2.wire.log
      = [WireEvent.beginTransmission 0x68, WireEvent.write 0x00, WireEvent.endTransmission,
         WireEvent.requestFrom 0x68 1,
         WireEvent.read (Uint8ToBcd dt.second ||| (s &&& 0x80))] ∧
    (RtcDS1307.GetIsRunning (RtcDS1307.answering [0] [1]
        [Uint8ToBcd dt.second ||| (s &&& 0x80)])).1
      = (RtcDS1307.GetIsRunning (RtcDS1307.answering [0] [1] [s])).1 ∧
    (writtenBytes (RtcDS1307.SetDateTime (RtcDS1307.answering [0, 0] [1] [s]) dt).wire.log).getD
        2 0 = Uint8ToBcd dt.second ||| (s &&& 0x80) := by
  obtain ⟨-, -, -, -, -, -, hsec⟩ := IsValid_bounds dt hv
  have hb := Uint8ToBcd_second_lt dt.second (by omega)
  obtain ⟨ha0, ha1⟩ := or_halt_bit_table (Uint8ToBcd dt.second) hb
  obtain ⟨hbit, hrun⟩ := halt_bit_table s hs
  have hbyte : Uint8ToBcd dt.second ||| (s &&& 0x80) < 256 := by
    rcases hbit with ⟨h1, -⟩ | ⟨h1, -⟩
    · rw [h1, ha0]; omega
    · rw [h1, ha1]; omega
  have hgetlog : (RtcDS1307.GetIsRunning (RtcDS1307.answering [0] [1]
        [Uint8ToBcd dt.second ||| (s &&& 0x80)])).2.wire.log
      = [WireEvent.beginTransmission 0x68, WireEvent.write 0x00, WireEvent.endTransmission,
         WireEvent.requestFrom 0x68 1,
         WireEvent.read (Uint8ToBcd dt.second ||| (s &&& 0x80))] := by
    have hmod := Nat.mod_eq_of_lt hbyte
    simp [RtcDS1307.GetIsRunning, RtcDS1307.getReg, RtcDS1307.answering,
      TwoWire.endTransmission, TwoWire.beginTransmission, TwoWire.write, TwoWire.requestFrom,
      TwoWire.read, DS1307_ADDRESS, DS1307_REG_STATUS, hmod]
  have hthird := DS1307_SetDateTime_seconds_byte dt s
  rw [Nat.mod_eq_of_lt hs] at hthird
  refine ⟨DS1307_SetDateTime_log dt s hs, ?_, ?_, hgetlog, ?_, hthird⟩
  · rcases hbit with ⟨h1, h2⟩ | ⟨h1, h2⟩
    · rw [h1, ha0]; omega
    · rw [h1, ha1]; omega
  · rcases hbit with ⟨h1, h2⟩ | ⟨h1, h2⟩
    · rw [h1, ha0]; omega
    · rw [h1, ha1]; omega
  · rw [(halt_bit_table _ hbyte).2, hrun]
    rcases hbit with ⟨h1, h2⟩ | ⟨h1, h2⟩
    · rw [h1, ha0]
      have : Uint8ToBcd dt.second / 128 = 0 := by omega
      simp [this, h2]
    · rw [h1, ha1]
      have : (Uint8ToBcd dt.second + 128) / 128 = 1 := by omega
      simp [this, h2]

theorem DS1307_SetDateTime_keeps_running_state_witness :
    (RtcDS1307.SetDateTime (RtcDS1307.answering [0, 0] [1] [0x80])
        ⟨26, 11, 1, 12, 0, 45⟩).wire.log
      = [WireEvent.beginTransmission 0x68, WireEvent.write 0x00, WireEvent.endTransmission,
         WireEvent.requestFrom 0x68 1, WireEvent.read 0x80,
         WireEvent.beginTransmission 0x68, WireEvent.write 0x00,
         WireEvent.write 0xc5, WireEvent.write 0x00, WireEvent.write 0x12,
         WireEvent.write 0x07, WireEvent.write 0x01, WireEvent.write 0x11,
         WireEvent.write 0x26, WireEvent.endTransmission] ∧
    (Uint8ToBcd 45 ||| (0x80 &&& 0x80)) / 128 = 0x80 / 128 ∧
    (Uint8ToBcd 45 ||| (0x80 &&& 0x80)) % 128 = Uint8ToBcd 45 :=
  ⟨(DS1307_SetDateTime_keeps_running_state ⟨26, 11, 1, 12, 0, 45⟩ (by decide) 0x80
      (by decide)).1,
   (DS1307_SetDateTime_keeps_running_state ⟨26, 11, 1, 12, 0, 45⟩ (by decide) 0x80
      (by decide)).2.1,
   (DS1307_SetDateTime_keeps_running_state ⟨26, 11, 1, 12, 0, 45⟩ (by decide) 0x80
      (by decide)).2.2.1⟩

theorem bcd_field_table : ∀ n < 100, BcdToUint8 (Uint8ToBcd n % 256) = n := by
  decide

theorem bcd_hour_table : ∀ h < 24, BcdToBin24Hour (Uint8ToBcd h % 256) = h := by
  decide

set_option maxRecDepth 100000 in
theorem bcd_second_table : ∀ second < 60, ∀ halt : Bool,
    BcdToUint8 ((Uint8ToBcd second % 128 + (if halt then 128 else 0)) % 256 &&& 0x7f)
      = second := by
  decide

theorem DS1302_SetDateTime_bytes (dt : RtcDateTime) :
    writtenBytes (RtcDS1302.SetDateTime (ThreeWire.answering []) dt).log
      = [Uint8ToBcd dt.second, Uint8ToBcd dt.minute, Uint8ToBcd dt.hour,
         Uint8ToBcd dt.dayOfMonth, Uint8ToBcd dt.month,
         Uint8ToBcd (ConvertDowToRtc (DayOfWeek dt)),
         Uint8ToBcd ((dt.Year - 2000) % 256), 0] := by
  simp [RtcDS1302.SetDateTime, ThreeWire.answering, ThreeWire.beginTransmission,
    ThreeWire.write, ThreeWire.endTransmission, writtenBytes]

theorem DS1307_SetDateTime_bytes (dt : RtcDateTime) (s : Nat) :
    (writtenBytes (RtcDS1307.SetDateTime (RtcDS1307.answering [0, 0] [1] [s]) dt).wire.log).drop 2
      = [Uint8ToBcd dt.second ||| (s % 256 &&& 128), Uint8ToBcd dt.minute, Uint8ToBcd dt.hour,
         Uint8ToBcd (ConvertDowToRtc (DayOfWeek dt)),
         Uint8ToBcd dt.dayOfMonth, Uint8ToBcd dt.month,
         Uint8ToBcd ((dt.Year - 2000) % 256)] := by
  simp [RtcDS1307.SetDateTime, RtcDS1307.getReg, RtcDS1307.answering, TwoWire.endTransmission,
    TwoWire.beginTransmission, TwoWire.write, TwoWire.requestFrom, TwoWire.read, writtenBytes,
    _BV, DS1307_CH]

/-- C11: for every valid calendar value with year 2000..2099, when the bytes
SetDateTime writes are handed back in the same order to the burst read of
GetDateTime, with any weekday byte and any bit 7 in the seconds byte,
GetDateTime returns the same year, month, day-of-month, hour, minute and
second; on chip A (eight bytes, weekday sixth) and on chip B (seven bytes,
weekday fourth, written after a status read that returned s). -/
theorem GetDateTime_SetDateTime (dt : RtcDateTime) (hv : IsValid dt = true)
    (hy : dt.yearFrom2000 ≤ 99) (weekday : Nat) (halt : Bool) (s : Nat) :
    (RtcDS1302.GetDateTime (ThreeWire.answering
        (asReadBack (writtenBytes (RtcDS1302.SetDateTime (ThreeWire.answering []) dt).log)
          5 weekday halt))).1 = dt ∧
    (RtcDS1307.GetDateTime (RtcDS1307.answering [0] [7]
        (asReadBack
          ((writtenBytes
            (RtcDS1307.SetDateTime (RtcDS1307.answering [0, 0] [1] [s]) dt).wire.log).drop 2)
          3 weekday halt))).1 = dt := by
  obtain ⟨hm1, hm2, hd1, hd2, hh, hmi, hsec⟩ := IsValid_bounds dt hv
  have hb := Uint8ToBcd_second_lt dt.second (by omega)
  obtain ⟨ha0, ha1⟩ := or_halt_bit_table (Uint8ToBcd dt.second) hb
  have hsB : (Uint8ToBcd dt.second ||| (s % 256 &&& 128)) % 128 = Uint8ToBcd dt.second % 128 := by
    rcases (halt_bit_table (s % 256) (Nat.mod_lt _ (by decide))).1 with ⟨h1, -⟩ | ⟨h1, -⟩
    · rw [h1, ha0]
    · rw [h1, ha1]; omega
  have fsec := bcd_second_table dt.second (by omega) halt
  have fmin := bcd_field_table dt.minute (by omega)
  have fhour := bcd_hour_table dt.hour (by omega)
  have fday := bcd_field_table dt.dayOfMonth (by omega)
  have fmon := bcd_field_table dt.month (by omega)
  have fyear := bcd_field_table dt.yearFrom2000 (by omega)
  have hyear : (dt.Year - 2000) % 256 = dt.yearFrom2000 := by
    unfold RtcDateTime.Year; omega
  have hback : dt.yearFrom2000 % 256 = dt.yearFrom2000 := by omega
  constructor
  · rw [DS1302_SetDateTime_bytes, hyear]
    simp [asReadBack, RtcDS1302.GetDateTime, ThreeWire.answering, ThreeWire.beginTransmission,
      ThreeWire.read, ThreeWire.endTransmission, RtcDateTime.ofFields,
      fsec, fmin, fhour, fday, fmon, fyear, hback]
  · rw [DS1307_SetDateTime_bytes, hyear]
    simp [asReadBack, RtcDS1307.GetDateTime, RtcDS1307.answering, TwoWire.beginTransmission,
      TwoWire.write, TwoWire.endTransmission, TwoWire.requestFrom, TwoWire.read,
      DS1307_REG_TIMEDATE_SIZE, RtcDateTime.ofFields, hsB,
      fsec, fmin, fhour, fday, fmon, fyear, hback]

theorem GetDateTime_SetDateTime_witness :
    (RtcDS1302.GetDateTime (ThreeWire.answering
        (asReadBack (writtenBytes
          (RtcDS1302.SetDateTime (ThreeWire.answering []) ⟨26, 11, 1, 23, 59, 58⟩).log)
          5 0xff true))).1 = ⟨26, 11, 1, 23, 59, 58⟩ ∧
    (RtcDS1307.GetDateTime (RtcDS1307.answering [0] [7]
        (asReadBack
          ((writtenBytes
            (RtcDS1307.SetDateTime (RtcDS1307.answering [0, 0] [1] [0x80])
              ⟨26, 11, 1, 23, 59, 58⟩).wire.log).drop 2)
          3 0xff true))).1 = ⟨26, 11, 1, 23, 59, 58⟩ :=
  GetDateTime_SetDateTime ⟨26, 11, 1, 23, 59, 58⟩ (by decide) (by decide) 0xff true 0x80

/-- C13 (the code at the failing input): the address phase of the time read
ends with status 2, yet GetDateTime goes on to request seven bytes, reads
them, and returns the date they decode to, 2009-12-06 12:34:56, not the epoch
value RtcDateTime(0); LastError is 2 afterwards. -/
theorem DS1307_GetDateTime_after_failed_address_phase :
    (RtcDS1307.GetDateTime
        (RtcDS1307.answering [2] [7] [0x56, 0x34, 0x12, 0x07, 0x06, 0x12, 0x09])).2.wire.log
      = [WireEvent.beginTransmission 0x68, WireEvent.write 0x00, WireEvent.endTransmission,
         WireEvent.requestFrom 0x68 7,
         WireEvent.read 0x56, WireEvent.read 0x34, WireEvent.read 0x12, WireEvent.read 0x07,
         WireEvent.read 0x06, WireEvent.read 0x12, WireEvent.read 0x09] ∧
    (RtcDS1307.GetDateTime
        (RtcDS1307.answering [2] [7] [0x56, 0x34, 0x12, 0x07, 0x06, 0x12, 0x09])).1
      = ⟨9, 12, 6, 12, 34, 56⟩ ∧
    RtcDateTime.fromSeconds 0 = ⟨0, 1, 1, 0, 0, 0⟩ ∧
    (RtcDS1307.GetDateTime
        (RtcDS1307.answering [2] [7] [0x56, 0x34, 0x12, 0x07, 0x06, 0x12, 0x09])).2.LastError
      = 2 := by
  decide

/-! ## Theorems: auxiliary memory -/

/-- C15 (the code at the failing inputs): logical addresses far outside the
region reach registers outside it. Chip A: SetMemory(96, v) writes register
0x80 (seconds and clock halt) and GetMemory(32) reads command byte 0x01.
Chip B: SetMemory(248, v) writes register 0x00, GetMemory(250) reads register
0x02, block SetMemory(248, ..., 3) writes registers 0x00..0x02, and block
GetMemory(55, ..., 2) requests two bytes starting at the last register 0x3F. -/
theorem memory_operations_outside_region :
    (RtcDS1302.SetMemory (ThreeWire.answering []) 96 0x80).log
      = [WireEvent.beginTransmission 0x80, WireEvent.write 0x80, WireEvent.endTransmission] ∧
    (RtcDS1302.GetMemory (ThreeWire.answering [0x55]) 32).2.log
      = [WireEvent.beginTransmission 0x01, WireEvent.read 0x55, WireEvent.endTransmission] ∧
    (RtcDS1307.SetMemory (RtcDS1307.answering [0] [] []) 248 0x80).wire.log
      = [WireEvent.beginTransmission 0x68, WireEvent.write 0x00, WireEvent.write 0x80,
         WireEvent.endTransmission] ∧
    (RtcDS1307.GetMemory (RtcDS1307.answering [0] [1] [0x12]) 250).2.wire.log
      = [WireEvent.beginTransmission 0x68, WireEvent.write 0x02, WireEvent.endTransmission,
         WireEvent.requestFrom 0x68 1, WireEvent.read 0x12] ∧
    RtcDS1307.SetMemoryBlock (RtcDS1307.answering [0] [] []) 248 [1, 2, 3] 3
      = (3, { wire := { log := [WireEvent.beginTransmission 0x68, WireEvent.write 0x00,
                                WireEvent.write 1, WireEvent.write 2, WireEvent.write 3,
                                WireEvent.endTransmission],
                        endStatus := [], received := [], incoming := [] },
              lastError := 0 }) ∧
    (RtcDS1307.GetMemoryBlock (RtcDS1307.answering [0] [2] [0xaa, 0x45]) 55 2).2.wire.log
      = [WireEvent.beginTransmission 0x68, WireEvent.write 0x3f, WireEvent.endTransmission,
         WireEvent.requestFrom 0x68 2, WireEvent.read 0xaa, WireEvent.read 0x45] ∧
    (RtcDS1307.GetMemoryBlock (RtcDS1307.answering [0] [2] [0xaa, 0x45]) 55 2).1
      = (2, [0xaa, 0x45]) := by
  decide

/-- The count block SetMemory of chip B settles on, for an address inside the
region: the request clamped to `DS1307_REG_RAMEND - address`, one less than the
number of registers left. -/
theorem DS1307_SetMemoryBlock_count (rtc : RtcDS1307) (a : Nat) (pValue : List Nat) (n : Nat)
    (ha : a ≤ 55) :
    (RtcDS1307.SetMemoryBlock rtc a pValue n).1 = min n (55 - a) := by
  have haddr : (a + DS1307_REG_RAMSTART) % 256 = a + 8 := by
    unfold DS1307_REG_RAMSTART; omega
  unfold RtcDS1307.SetMemoryBlock
  simp only [haddr, DS1307_REG_RAMEND]
  rw [if_neg (by omega)]
  dsimp only
  split <;> omega

/-- C17 (the code at the failing inputs): block SetMemory(55, buf, 1) on chip B
writes no data byte and returns 0 although register 0x3F is left, and block
SetMemory(0, buf, 56) returns 55 although 56 registers are left. -/
theorem DS1307_SetMemoryBlock_off_by_one :
    RtcDS1307.SetMemoryBlock (RtcDS1307.answering [0] [] []) 55 [0xaa] 1
      = (0, { wire := { log := [WireEvent.beginTransmission 0x68, WireEvent.write 0x3f,
                                WireEvent.endTransmission],
                        endStatus := [], received := [], incoming := [] },
              lastError := 0 }) ∧
    min 1 (56 - 55) = 1 ∧
    (RtcDS1307.SetMemoryBlock (RtcDS1307.answering [0] [] []) 0 (List.replicate 56 0xaa) 56).1
      = 55 ∧
    min 56 (56 - 0) = 56 := by
  decide

/-! ## Theorems: text constructors -/

theorem skipZerosAndSpaces_skip (c : Nat) (rest : List Nat) (h : c = 48 ∨ c = 32) :
    skipZerosAndSpaces (c :: rest) = skipZerosAndSpaces rest := by
  rw [skipZerosAndSpaces, if_pos h]

theorem skipZerosAndSpaces_keep (c : Nat) (rest : List Nat) (h : ¬ (c = 48 ∨ c = 32)) :
    skipZerosAndSpaces (c :: rest) = c :: rest := by
  rw [skipZerosAndSpaces, if_neg h]

theorem accumulateDigits_digit (value c : Nat) (rest : List Nat) (h : 48 ≤ c ∧ c ≤ 57) :
    accumulateDigits value (c :: rest)
      = accumulateDigits ((value * 10 % 256 + (c - 48)) % 256) rest := by
  rw [accumulateDigits, if_pos h]

theorem skipZerosAndSpaces_stop (rest : List Nat) (h : StopsParsing rest) :
    skipZerosAndSpaces rest = rest := by
  rcases h with rfl | ⟨c, cs, rfl, h1, h2⟩
  · rfl
  · exact skipZerosAndSpaces_keep c cs (by omega)

theorem accumulateDigits_stop (value : Nat) (rest : List Nat) (h : StopsDigits rest) :
    accumulateDigits value rest = value := by
  rcases h with rfl | ⟨c, cs, rfl, h2⟩
  · rfl
  · rw [accumulateDigits, if_neg h2]

theorem StopsParsing.stopsDigits (rest : List Nat) (h : StopsParsing rest) : StopsDigits rest := by
  rcases h with rfl | ⟨c, cs, rfl, -, h2⟩
  · exact Or.inl rfl
  · exact Or.inr ⟨c, cs, rfl, h2⟩

/-- A two-character number followed by a non-digit parses to itself; a zero
needs the stronger stop, since the skipping loop also runs over spaces. -/
theorem StringToUint8_twoCharacters (pad n : Nat) (rest : List Nat)
    (hpad : pad = 48 ∨ pad = 32) (hn : n < 100) (h : StopsDigits rest)
    (h0 : 1 ≤ n ∨ StopsParsing rest) :
    StringToUint8 (twoCharacters pad n ++ rest) = n := by
  unfold StringToUint8 twoCharacters
  simp only [List.cons_append, List.nil_append]
  by_cases h10 : n < 10
  · rw [if_pos h10, skipZerosAndSpaces_skip _ _ hpad]
    by_cases hz : n = 0
    · subst hz
      have hp : StopsParsing rest := by
        rcases h0 with h0 | h0
        · omega
        · exact h0
      rw [skipZerosAndSpaces_skip _ _ (Or.inl rfl), skipZerosAndSpaces_stop rest hp,
        accumulateDigits_stop 0 rest h]
    · rw [skipZerosAndSpaces_keep _ _ (by omega), accumulateDigits_digit _ _ _ (by omega),
        accumulateDigits_stop _ rest h]
      omega
  · rw [if_neg h10, skipZerosAndSpaces_keep _ _ (by omega),
      accumulateDigits_digit _ _ _ (by omega), accumulateDigits_digit _ _ _ (by omega),
      accumulateDigits_stop _ rest h]
    omega

theorem year_last_two_digits (y : Nat) (hy : y ≤ 99) :
    [48 + (2000 + y) / 10 % 10, 48 + (2000 + y) % 10] = twoCharacters 48 y ++ [] := by
  unfold twoCharacters
  have h1 : (2000 + y) / 10 % 10 = y / 10 := by omega
  have h2 : (2000 + y) % 10 = y % 10 := by omega
  rw [h1, h2]
  by_cases h : y < 10
  · have : y / 10 = 0 := by omega
    simp [h, this]
  · simp [h]

theorem stops_nil : StopsParsing [] := Or.inl rfl

theorem stops_colon (cs : List Nat) : StopsParsing (58 :: cs) :=
  Or.inr ⟨58, cs, rfl, by decide, by decide⟩

theorem stopsDigits_space (cs : List Nat) : StopsDigits (32 :: cs) :=
  Or.inr ⟨32, cs, rfl, by decide⟩

/-- C20: for every valid date-time with year 2000..2099, rendered as
"Mon dd yyyy" (day padded to two characters with a zero or a space) and
"hh:mm:ss", the text constructor yields year offset yyyy - 2000, the month
number of the abbreviation, and the rendered day, hour, minute and second. -/
theorem ofDateTimeText_render (dt : RtcDateTime) (hv : IsValid dt = true)
    (hy : dt.yearFrom2000 ≤ 99) (pad : Nat) (hpad : pad = 48 ∨ pad = 32) (unset : Nat) :
    RtcDateTime.ofDateTimeText (renderDate pad dt) (renderTime dt) unset = dt := by
  obtain ⟨hm1, hm2, hd1, hd2, hh, hmi, hsec⟩ := IsValid_bounds dt hv
  obtain ⟨y, mo, d, h, mi, s⟩ := dt
  simp only at hm1 hm2 hd1 hd2 hh hmi hsec hy
  have fyear : StringToUint8 [48 + (2000 + y) / 10 % 10, 48 + (2000 + y) % 10] = y := by
    rw [year_last_two_digits y hy]
    exact StringToUint8_twoCharacters 48 y [] (Or.inl rfl) (by omega) stops_nil.stopsDigits
      (Or.inr stops_nil)
  have fday : StringToUint8 (twoCharacters pad d ++ (32 :: fourDigits (2000 + y))) = d :=
    StringToUint8_twoCharacters pad d _ hpad (by omega) (stopsDigits_space _) (Or.inl hd1)
  have fhour : StringToUint8 (twoCharacters 48 h ++
      (58 :: (twoCharacters 48 mi ++ (58 :: (twoCharacters 48 s ++ []))))) = h :=
    StringToUint8_twoCharacters 48 h _ (Or.inl rfl) (by omega) (stops_colon _).stopsDigits
      (Or.inr (stops_colon _))
  have fmin : StringToUint8 (twoCharacters 48 mi ++ (58 :: (twoCharacters 48 s ++ []))) = mi :=
    StringToUint8_twoCharacters 48 mi _ (Or.inl rfl) (by omega) (stops_colon _).stopsDigits
      (Or.inr (stops_colon _))
  have fsec : StringToUint8 (twoCharacters 48 s ++ []) = s :=
    StringToUint8_twoCharacters 48 s [] (Or.inl rfl) (by omega) stops_nil.stopsDigits
      (Or.inr stops_nil)
  have key : ∀ month : Nat,
      RtcDateTime.mk (StringToUint8 [48 + (2000 + y) / 10 % 10, 48 + (2000 + y) % 10]) month
        (StringToUint8 (twoCharacters pad d ++ (32 :: fourDigits (2000 + y))))
        (StringToUint8 (twoCharacters 48 h ++
          (58 :: (twoCharacters 48 mi ++ (58 :: (twoCharacters 48 s ++ []))))))
        (StringToUint8 (twoCharacters 48 mi ++ (58 :: (twoCharacters 48 s ++ []))))
        (StringToUint8 (twoCharacters 48 s ++ []))
      = RtcDateTime.mk y month d h mi s := by
    intro month
    rw [fyear, fday, fhour, fmin, fsec]
  interval_cases mo
  · exact key 1
  · exact key 2
  · exact key 3
  · exact key 4
  · exact key 5
  · exact key 6
  · exact key 7
  · exact key 8
  · exact key 9
  · exact key 10
  · exact key 11
  · exact key 12

theorem ofDateTimeText_render_witness :
    RtcDateTime.ofDateTimeText (renderDate 48 ⟨9, 12, 6, 12, 34, 56⟩)
      (renderTime ⟨9, 12, 6, 12, 34, 56⟩) 0 = ⟨9, 12, 6, 12, 34, 56⟩ :=
  ofDateTimeText_render ⟨9, 12, 6, 12, 34, 56⟩ (by decide) (by decide) 48 (Or.inl rfl) 0


/-! ## Theorems: fixed-width date-time text -/

theorem StringToUint8_zero_cons (rest : List Nat) :
    StringToUint8 (48 :: rest) = StringToUint8 rest := by
  unfold StringToUint8
  rw [skipZerosAndSpaces_skip _ _ (Or.inl rfl)]

/-- A zero-padded two-digit number followed by a space and a text that stops
the loops parses to itself, a zero included. -/
theorem StringToUint8_twoCharacters_space (n : Nat) (rest : List Nat) (hn : n < 100)
    (h : StopsParsing rest) :
    StringToUint8 (twoCharacters 48 n ++ (32 :: rest)) = n := by
  by_cases h0 : n = 0
  · subst h0
    show accumulateDigits 0 (skipZerosAndSpaces (48 :: 48 :: 32 :: rest)) = 0
    rw [skipZerosAndSpaces_skip _ _ (Or.inl rfl), skipZerosAndSpaces_skip _ _ (Or.inl rfl),
      skipZerosAndSpaces_skip _ _ (Or.inr rfl), skipZerosAndSpaces_stop rest h,
      accumulateDigits_stop 0 rest h.stopsDigits]
  · exact StringToUint8_twoCharacters 48 n _ (Or.inl rfl) hn (stopsDigits_space _)
      (Or.inl (by omega))

theorem year_last_three_digits (y : Nat) (hy : y ≤ 99) (rest : List Nat) :
    (48 + (2000 + y) / 100 % 10) :: (48 + (2000 + y) / 10 % 10) :: (48 + (2000 + y) % 10) :: rest
      = 48 :: (twoCharacters 48 y ++ rest) := by
  unfold twoCharacters
  have h0 : (2000 + y) / 100 % 10 = 0 := by omega
  have h1 : (2000 + y) / 10 % 10 = y / 10 := by omega
  have h2 : (2000 + y) % 10 = y % 10 := by omega
  rw [h0, h1, h2]
  by_cases h : y < 10
  · have : y / 10 = 0 := by omega
    simp [h, this]
  · simp [h]

theorem monthAbbreviation_letters (month : Nat) (hm1 : 1 ≤ month) (hm2 : month ≤ 12) :
    ∃ m0 m1 m2, monthAbbreviation month = [m0, m1, m2] ∧
      ∀ unset, monthOfLetters m0 m1 m2 unset = month := by
  interval_cases month <;> exact ⟨_, _, _, rfl, fun _ => rfl⟩

/-- From 2001 on the fixed-width parser returns the rendered value: for every
valid date-time with year 2001..2099, any three weekday bytes and a time zone
abbreviation that does not start with a digit or a space. -/
theorem InitWithIso8601_render_after_2000 (self dt : RtcDateTime) (hv : IsValid dt = true)
    (hy1 : 1 ≤ dt.yearFrom2000) (hy : dt.yearFrom2000 ≤ 99)
    (w0 w1 w2 : Nat) (zone : List Nat) (hz : StopsParsing zone) :
    RtcDateTime.InitWithIso8601 self (renderIso8601 [w0, w1, w2] zone dt) = dt := by
  obtain ⟨hm1, hm2, hd1, hd2, hh, hmi, hsec⟩ := IsValid_bounds dt hv
  obtain ⟨y, mo, d, h, mi, s⟩ := dt
  simp only at hm1 hm2 hd1 hd2 hh hmi hsec hy hy1
  obtain ⟨m0, m1, m2, hab, hmon⟩ := monthAbbreviation_letters mo hm1 hm2
  have fsec : StringToUint8
      ((if s < 10 then 48 else 48 + s / 10) :: (48 + s % 10) :: 32 :: zone) = s :=
    StringToUint8_twoCharacters_space s zone (by omega) hz
  have fmin : StringToUint8
      ((if mi < 10 then 48 else 48 + mi / 10) :: (48 + mi % 10) :: 58 :: (if s < 10 then 48
        else 48 + s / 10) :: (48 + s % 10) :: 32 :: zone) = mi :=
    StringToUint8_twoCharacters 48 mi _ (Or.inl rfl) (by omega) (stops_colon _).stopsDigits
      (Or.inr (stops_colon _))
  have fhour : StringToUint8
      ((if h < 10 then 48 else 48 + h / 10) :: (48 + h % 10) :: 58 :: (if mi < 10 then 48 else
        48 + mi / 10) :: (48 + mi % 10) :: 58 :: (if s < 10 then 48 else 48 + s / 10) :: (48 + s
        % 10) :: 32 :: zone) = h :=
    StringToUint8_twoCharacters 48 h _ (Or.inl rfl) (by omega) (stops_colon _).stopsDigits
      (Or.inr (stops_colon _))
  have fyear : StringToUint8
      ((48 + (2000 + y) / 100 % 10) :: (48 + (2000 + y) / 10 % 10) :: (48 + (2000 + y) % 10) ::
        32 :: (if h < 10 then 48 else 48 + h / 10) :: (48 + h % 10) :: 58 :: (if mi < 10 then 48
        else 48 + mi / 10) :: (48 + mi % 10) :: 58 :: (if s < 10 then 48 else 48 + s / 10) ::
        (48 + s % 10) :: 32 :: zone) = y := by
    rw [year_last_three_digits y hy, StringToUint8_zero_cons]
    exact StringToUint8_twoCharacters 48 y _ (Or.inl rfl) (by omega) (stopsDigits_space _)
      (Or.inl hy1)
  have fday : StringToUint8
      ((if d < 10 then 48 else 48 + d / 10) :: (48 + d % 10) :: 32 :: m0 :: m1 :: m2 :: 32 ::
        (48 + (2000 + y) / 1000 % 10) :: (48 + (2000 + y) / 100 % 10) :: (48 + (2000 + y) / 10 %
        10) :: (48 + (2000 + y) % 10) :: 32 :: (if h < 10 then 48 else 48 + h / 10) :: (48 + h %
        10) :: 58 :: (if mi < 10 then 48 else 48 + mi / 10) :: (48 + mi % 10) :: 58 :: (if s <
        10 then 48 else 48 + s / 10) :: (48 + s % 10) :: 32 :: zone) = d :=
    StringToUint8_twoCharacters 48 d _ (Or.inl rfl) (by omega) (stopsDigits_space _)
      (Or.inl hd1)
  have hrender : renderIso8601 [w0, w1, w2] zone ⟨y, mo, d, h, mi, s⟩
      = w0 :: w1 :: w2 :: 44 :: 32 :: (if d < 10 then 48 else 48 + d / 10) :: (48 + d % 10) ::
        32 :: m0 :: m1 :: m2 :: 32 :: (48 + (2000 + y) / 1000 % 10) :: (48 + (2000 + y) / 100 %
        10) :: (48 + (2000 + y) / 10 % 10) :: (48 + (2000 + y) % 10) :: 32 :: (if h < 10 then 48
        else 48 + h / 10) :: (48 + h % 10) :: 58 :: (if mi < 10 then 48 else 48 + mi / 10) ::
        (48 + mi % 10) :: 58 :: (if s < 10 then 48 else 48 + s / 10) :: (48 + s % 10) :: 32 ::
        zone := by
    simp only [renderIso8601, hab, RtcDateTime.Year, twoCharacters, fourDigits,
      List.cons_append, List.nil_append, List.append_assoc]
  rw [hrender]
  show RtcDateTime.mk (StringToUint8 _) (monthOfLetters m0 m1 m2 self.month) (StringToUint8 _)
    (StringToUint8 _) (StringToUint8 _) (StringToUint8 _) = _
  simp only [List.drop_succ_cons, List.drop_zero]
  rw [fyear, fday, fhour, fmin, fsec, hmon]

/-- C21 (the code at the failing input): "Sat, 01 Jan 2000 12:34:56 GMT" is the
fixed-width rendering of the valid date-time 2000-01-01 12:34:56, yet
InitWithIso8601 sets the year offset to 12, the hour, and not to 0; the
sample "Sat, 06 Dec 2009 12:34:56 GMT" gives 2009-12-06 12:34:56. -/
theorem InitWithIso8601_year_2000 :
    IsValid ⟨0, 1, 1, 12, 34, 56⟩ = true ∧
    renderIso8601 (bytesOf "Sat") (bytesOf "GMT") ⟨0, 1, 1, 12, 34, 56⟩
      = bytesOf "Sat, 01 Jan 2000 12:34:56 GMT" ∧
    RtcDateTime.InitWithIso8601 ⟨0, 0, 0, 0, 0, 0⟩ (bytesOf "Sat, 01 Jan 2000 12:34:56 GMT")
      = ⟨12, 1, 1, 12, 34, 56⟩ ∧
    RtcDateTime.InitWithIso8601 ⟨0, 0, 0, 0, 0, 0⟩ (bytesOf "Sat, 06 Dec 2009 12:34:56 GMT")
      = ⟨9, 12, 6, 12, 34, 56⟩ := by
  decide

/-! ## Theorems: temperature -/

/-- C22 (the code at the failing inputs): for high byte 25 and low byte 0x40
(25.25 degrees) the register temperature is 2525 hundredths, yet
AsCentiDegC returns 28953: the macro multiplies 256 * 25 + 1 = 6401 by 25 and
the product 160025 is narrowed to 16 bits. For high byte 1, low byte 0 it
returns 6400, not 100. With a high byte of 0 the two agree. -/
theorem RtcTemperature_ofRegisters_scale :
    (RtcTemperature.ofRegisters 25 0x40).AsCentiDegC = 28953 ∧
    registerCentiDegC 25 0x40 = 2525 ∧
    HIGH_LOW_TO_DEG_C 25 0x40 = 160025 ∧
    (RtcTemperature.ofRegisters 1 0x00).AsCentiDegC = 6400 ∧
    registerCentiDegC 1 0x00 = 100 ∧
    (RtcTemperature.ofRegisters (-1) 0xc0).AsCentiDegC = -6325 ∧
    registerCentiDegC (-1) 0xc0 = -25 ∧
    (RtcTemperature.ofRegisters 0 0xc0).AsCentiDegC = 75 ∧
    registerCentiDegC 0 0xc0 = 75 := by
  decide

/-! ## Theorems: chronological order -/

theorem chronoLt_trichotomy (a b : RtcDateTime) : a = b ∨ chronoLt a b ∨ chronoLt b a := by
  obtain ⟨ay, am, ad, ah, ami, as⟩ := a
  obtain ⟨b_y, bm, bd, bh, bmi, bs⟩ := b
  simp only [chronoLt, RtcDateTime.mk.injEq]
  omega

/-- The day of the year of a valid date, counted from 1, is at most the length
of the year as the day count sees it. -/
theorem dayOfYear_le (dt : RtcDateTime) (hv : IsValid dt = true) (hy : dt.yearFrom2000 ≤ 99) :
    dt.dayOfMonth + daysBeforeMonth dt.month
        + (if dt.month > 2 ∧ dt.yearFrom2000 % 4 = 0 then 1 else 0)
      ≤ 365 + (if dt.yearFrom2000 % 4 = 0 then 1 else 0) := by
  obtain ⟨hm1, hm2, hd1, hd2, hh, hmi, hs⟩ := IsValid_bounds dt hv
  obtain ⟨hcal, -⟩ := (IsValid_true_iff dt).mp hv
  have hlen : dt.dayOfMonth ≤ monthLength dt.Year dt.month := hcal.2.2.2.2.2
  rw [RtcDateTime.Year, monthLength_eq_table _ _ hy hm1 hm2] at hlen
  have hl : (if dt.yearFrom2000 % 4 = 0 then 1 else 0) < 2 := by split <;> omega
  obtain ⟨-, hdoy⟩ := peelMonths_spec (if dt.yearFrom2000 % 4 = 0 then 1 else 0) dt.month
    (dt.dayOfMonth - 1) hl hm1 hm2 (by omega)
  have hadj : (if dt.month > 2 ∧ (if dt.yearFrom2000 % 4 = 0 then 1 else 0) ≠ 0 then 1 else 0)
      = (if dt.month > 2 ∧ dt.yearFrom2000 % 4 = 0 then 1 else 0) := by
    by_cases h4 : dt.yearFrom2000 % 4 = 0 <;> simp [h4]
  rw [hadj] at hdoy
  omega

/-- Within one year the first of a later month comes after every valid day of
an earlier month. -/
theorem daysExact_month_lt (y m m' d : Nat) (hy : y ≤ 99) (hm1 : 1 ≤ m) (hlt : m < m')
    (hm2 : m' ≤ 12) (hd : d ≤ monthLength (2000 + y) m) :
    daysExact y m d < daysExact y m' 1 := by
  have hstep : ∀ k, m + 1 + k ≤ 12 → daysExact y m d < daysExact y (m + 1 + k) 1 := by
    intro k
    induction k with
    | zero =>
      intro hk
      have h1 := daysExact_next_month y m hy hm1 (by omega)
      have h2 : daysExact y m d ≤ daysExact y m (monthLength (2000 + y) m) := by
        unfold daysExact; omega
      simp only [Nat.add_zero]
      omega
    | succ k ih =>
      intro hk
      have h1 := daysExact_next_month y (m + 1 + k) hy (by omega) (by omega)
      have h2 : daysExact y (m + 1 + k) 1
          ≤ daysExact y (m + 1 + k) (monthLength (2000 + y) (m + 1 + k)) := by
        have hpos : 1 ≤ monthLength (2000 + y) (m + 1 + k) := by
          rw [monthLength_eq_table _ _ hy (by omega) (by omega)]
          have : m + 1 + k ≤ 12 := by omega
          have h28 : 28 ≤ c_daysInMonth.getD (m + 1 + k - 1) 0 := by
            generalize m + 1 + k = j at this ⊢
            have : 1 ≤ j ∨ j = 0 := by omega
            rcases this with hj | hj
            · interval_cases j <;> decide
            · subst hj; decide
          omega
        unfold daysExact; omega
      have := ih (by omega)
      have e : m + 1 + (k + 1) = m + 1 + k + 1 := by omega
      rw [e]
      omega
  obtain ⟨k, rfl⟩ : ∃ k, m' = m + 1 + k := ⟨m' - m - 1, by omega⟩
  exact hstep k hm2

theorem daysExact_lt_of_date_lt (a b : RtcDateTime) (hva : IsValid a = true)
    (hvb : IsValid b = true) (hya : a.yearFrom2000 ≤ 99)
    (hlt : a.yearFrom2000 < b.yearFrom2000 ∨ (a.yearFrom2000 = b.yearFrom2000 ∧
      (a.month < b.month ∨ (a.month = b.month ∧ a.dayOfMonth < b.dayOfMonth)))) :
    daysExact a.yearFrom2000 a.month a.dayOfMonth
      < daysExact b.yearFrom2000 b.month b.dayOfMonth := by
  obtain ⟨ham1, ham2, had1, had2, -, -, -⟩ := IsValid_bounds a hva
  obtain ⟨hbm1, hbm2, hbd1, hbd2, -, -, -⟩ := IsValid_bounds b hvb
  rcases hlt with hy | ⟨hy, hm | ⟨hm, hd⟩⟩
  · have hdoy := dayOfYear_le a hva hya
    have hstep : (a.yearFrom2000 + 4) / 4
        = (a.yearFrom2000 + 3) / 4 + (if a.yearFrom2000 % 4 = 0 then 1 else 0) := by
      split <;> omega
    have hmono : (a.yearFrom2000 + 4) / 4 ≤ (b.yearFrom2000 + 3) / 4 := by omega
    have hb : 365 * b.yearFrom2000 + (b.yearFrom2000 + 3) / 4
        ≤ daysExact b.yearFrom2000 b.month b.dayOfMonth := by
      unfold daysExact; omega
    have ha : daysExact a.yearFrom2000 a.month a.dayOfMonth + 1
        ≤ 365 + (if a.yearFrom2000 % 4 = 0 then 1 else 0) + 365 * a.yearFrom2000
          + (a.yearFrom2000 + 3) / 4 := by
      unfold daysExact; omega
    omega
  · obtain ⟨hcal, -⟩ := (IsValid_true_iff a).mp hva
    have hlen : a.dayOfMonth ≤ monthLength a.Year a.month := hcal.2.2.2.2.2
    have h1 := daysExact_month_lt a.yearFrom2000 a.month b.month a.dayOfMonth hya ham1 hm hbm2
      hlen
    have h2 : daysExact a.yearFrom2000 b.month 1
        ≤ daysExact a.yearFrom2000 b.month b.dayOfMonth := by
      unfold daysExact; omega
    rw [← hy]
    omega
  · rw [← hy, ← hm]
    unfold daysExact
    omega

theorem TotalSeconds_lt_of_chronoLt (a b : RtcDateTime) (hva : IsValid a = true)
    (hvb : IsValid b = true) (hya : a.yearFrom2000 ≤ 99) (hyb : b.yearFrom2000 ≤ 99)
    (hlt : chronoLt a b) : TotalSeconds a < TotalSeconds b := by
  obtain ⟨-, -, -, -, hah, hami, has⟩ := IsValid_bounds a hva
  obtain ⟨-, -, -, -, hbh, hbmi, hbs⟩ := IsValid_bounds b hvb
  rw [TotalSeconds_exact a hva hya, TotalSeconds_exact b hvb hyb]
  unfold chronoLt at hlt
  by_cases hdate : a.yearFrom2000 < b.yearFrom2000 ∨ (a.yearFrom2000 = b.yearFrom2000 ∧
      (a.month < b.month ∨ (a.month = b.month ∧ a.dayOfMonth < b.dayOfMonth)))
  · have hD := daysExact_lt_of_date_lt a b hva hvb hya hdate
    generalize daysExact a.yearFrom2000 a.month a.dayOfMonth = Da at hD ⊢
    generalize daysExact b.yearFrom2000 b.month b.dayOfMonth = Db at hD ⊢
    omega
  · have hsame : a.yearFrom2000 = b.yearFrom2000 ∧ a.month = b.month
        ∧ a.dayOfMonth = b.dayOfMonth := by omega
    obtain ⟨e1, e2, e3⟩ := hsame
    rw [e1, e2, e3]
    generalize daysExact b.yearFrom2000 b.month b.dayOfMonth = Db
    omega

/-- C23: for any two valid calendar values with years 2000..2099, if a
precedes b in the lexicographic order of (year, month, day-of-month, hour,
minute, second) then TotalSeconds a < TotalSeconds b; and equal second counts
come only from equal values. -/
theorem TotalSeconds_strictly_monotonic (a b : RtcDateTime) (hva : IsValid a = true)
    (hvb : IsValid b = true) (hya : a.yearFrom2000 ≤ 99) (hyb : b.yearFrom2000 ≤ 99) :
    (chronoLt a b → TotalSeconds a < TotalSeconds b) ∧
    (TotalSeconds a = TotalSeconds b → a = b) := by
  refine ⟨TotalSeconds_lt_of_chronoLt a b hva hvb hya hyb, fun heq => ?_⟩
  rcases chronoLt_trichotomy a b with h | h | h
  · exact h
  · have := TotalSeconds_lt_of_chronoLt a b hva hvb hya hyb h
    omega
  · have := TotalSeconds_lt_of_chronoLt b a hvb hva hyb hya h
    omega

theorem TotalSeconds_strictly_monotonic_witness :
    TotalSeconds ⟨95, 12, 31, 23, 59, 59⟩ < TotalSeconds ⟨96, 1, 1, 0, 0, 0⟩ :=
  (TotalSeconds_strictly_monotonic ⟨95, 12, 31, 23, 59, 59⟩ ⟨96, 1, 1, 0, 0, 0⟩
    (by decide) (by decide) (by decide) (by decide)).1 (by decide)

end Rtc
